import Mathlib

/-!
Verification of the modular-arithmetic and factorization core of the
`prime-factorization` crate against its specification.

The Rust source is embedded shallowly:

* The engine is generic over an unsigned machine width `W ∈ {32, 64, 128}`;
  every embedded function takes the width `w` as an explicit parameter and
  works on `Nat` values below `2 ^ w`.
* Machine operations that can wrap (addition, subtraction, multiplication)
  are modelled by checked operations returning `Option Nat`: `none` means the
  Rust expression would have overflowed or underflowed the `W`-bit type.
  A function returning `some v` therefore simultaneously states that the
  source computes `v` and that no two's-complement wrap occurred on the way.
* `while` loops and recursions are modelled with an explicit fuel argument;
  running out of fuel yields `none` (for `Option`-valued functions) or leaves
  the state unchanged, and the theorems below either supply provably
  sufficient fuel or hold for every fuel.
* `signed_shr` from the `num` crate copies the top ("sign") bit even for
  unsigned types; `asr` models this exactly.
-/

/-- Checked `W`-bit addition: `some (x + y)` when the sum fits in `w` bits. -/
def cadd (w x y : Nat) : Option Nat :=
  if x + y < 2 ^ w then some (x + y) else none

/-- Checked subtraction: `some (x - y)` when no underflow occurs. -/
def csub (x y : Nat) : Option Nat :=
  if y ≤ x then some (x - y) else none

/-- Checked `W`-bit multiplication: `some (x * y)` when the product fits. -/
def cmul (w x y : Nat) : Option Nat :=
  if x * y < 2 ^ w then some (x * y) else none

/-- Embeds the CoreArith unchecked addition, named add_mod_unsafe in the
source, which assumes reduced operands:
`if x < modu - y { x + y } else { min(x, y) - (modu - max(x, y)) }`. -/
def add_mod_unchecked (w x y m : Nat) : Option Nat :=
  (csub m y).bind fun d =>
    if x < d then cadd w x y
    else (csub m (max x y)).bind fun e => csub (min x y) e

/-- Embeds the CoreArith unchecked subtraction, named sub_mod_unsafe in the
source: `if x >= y { x - y } else { modu - (y - x) }`. -/
def sub_mod_unchecked (x y m : Nat) : Option Nat :=
  if y ≤ x then csub x y else (csub y x).bind fun d => csub m d

/-- Loop of the CoreArith unchecked multiplication, named mult_mod_unsafe in
the source (Russian-peasant multiplication):
while `y > 0`, add `x` into the accumulator when the low bit of `y` is set,
halve `y` and double `x` modulo `m`.  The fuel bounds the iteration count. -/
def mult_mod_unchecked_go (w m : Nat) : Nat → Nat → Nat → Nat → Option Nat
  | 0, _, y, res => if y = 0 then some res else none
  | fuel + 1, x, y, res =>
    if y = 0 then some res
    else
      (if y % 2 = 1 then add_mod_unchecked w res x m else some res).bind fun res' =>
        (add_mod_unchecked w x x m).bind fun x' =>
          mult_mod_unchecked_go w m fuel x' (y / 2) res'

/-- Embeds the CoreArith unchecked multiplication, named mult_mod_unsafe in
the source (early return `0` when `x = 0`, then the Russian-peasant loop
with fuel `y`, which halves each round). -/
def mult_mod_unchecked (w x y m : Nat) : Option Nat :=
  if x = 0 then some 0 else mult_mod_unchecked_go w m y x y 0

/-- Embeds `Arith::mult_mod`: reduce any operand that is `>= m` before
calling the unsafe multiplication. -/
def mult_mod (w x y m : Nat) : Option Nat :=
  if x < m then
    if y < m then mult_mod_unchecked w x y m else mult_mod_unchecked w x (y % m) m
  else
    if y < m then mult_mod_unchecked w (x % m) y m
    else mult_mod_unchecked w (x % m) (y % m) m

/-- Loop of the CoreArith unchecked exponentiation, named exp_mod_unsafe in
the source (square and multiply over the unchecked multiplication), with
fuel bounding the iteration count. -/
def exp_mod_unchecked_go (w m : Nat) : Nat → Nat → Nat → Nat → Option Nat
  | 0, _, ex, res => if ex = 0 then some res else none
  | fuel + 1, base, ex, res =>
    if ex = 0 then some res
    else
      (if ex % 2 = 1 then mult_mod_unchecked w res base m else some res).bind fun res' =>
        (mult_mod_unchecked w base base m).bind fun base' =>
          exp_mod_unchecked_go w m fuel base' (ex / 2) res'

/-- Embeds the CoreArith unchecked exponentiation, named exp_mod_unsafe in
the source (early return `0` when `base = 0`). -/
def exp_mod_unchecked (w base ex m : Nat) : Option Nat :=
  if base = 0 then some 0 else exp_mod_unchecked_go w m ex base ex 1

/-- Embeds `Arith::exp_mod`: reduce the base modulo `m` when it is `>= m`. -/
def exp_mod (w base ex m : Nat) : Option Nat :=
  if base < m then exp_mod_unchecked w base ex m else exp_mod_unchecked w (base % m) ex m

/-- Loop of `Arith::multip_inv` (extended Euclid in modular arithmetic):
while `rem_new > 0`, divide, subtract `quo * rem_new` from `rem`, and update
the inverse candidates modulo `m`. -/
def multip_inv_go (w m : Nat) : Nat → Nat → Nat → Nat → Nat → Option Nat
  | 0, rem, rem_new, inv, _ =>
    if rem_new = 0 then (if 1 < rem then some 0 else some inv) else none
  | fuel + 1, rem, rem_new, inv, inv_new =>
    if rem_new = 0 then (if 1 < rem then some 0 else some inv)
    else
      (cmul w (rem / rem_new) rem_new).bind fun t =>
        (csub rem t).bind fun rem_new' =>
          (mult_mod_unchecked w (rem / rem_new) inv_new m).bind fun u =>
            (sub_mod_unchecked inv u m).bind fun inv_new' =>
              multip_inv_go w m fuel rem_new rem_new' inv_new inv_new'

/-- Embeds `Arith::multip_inv`: reduce `x` modulo `m`, then run the loop
starting from `(rem, rem_new, inv, inv_new) = (m, x, 0, 1)`; fuel `m`
suffices because `rem_new` starts below `m` and strictly decreases. -/
def multip_inv (w x m : Nat) : Option Nat :=
  multip_inv_go w m m m (x % m) 0 1

/-- Models `PrimInt::signed_shr(1)` on an unsigned `w`-bit value: an
arithmetic shift that copies the top bit back in. -/
def asr (w x : Nat) : Nat :=
  if 2 ^ (w - 1) ≤ x then x / 2 + 2 ^ (w - 1) else x / 2

/-- Inner loop of `Arith::jacobi_symbol`: while `x` is even, shift it right
with `signed_shr` and flip the sign when `n mod 8` is `3` or `5`. -/
def jacobi_strip_go (w n : Nat) : Nat → Nat → Int → Option (Nat × Int)
  | 0, x, t => if x % 2 = 1 then some (x, t) else none
  | fuel + 1, x, t =>
    if x % 2 = 1 then some (x, t)
    else jacobi_strip_go w n fuel (asr w x) (if n % 8 = 3 ∨ n % 8 = 5 then -t else t)

/-- Outer loop of `Arith::jacobi_symbol`: strip twos from `x`, swap `x` and
`n`, flip the sign when both are `3 mod 4`, reduce, and repeat while
`x > 0`; at the end return the sign when `n = 1` and `0` otherwise. -/
def jacobi_go (w : Nat) : Nat → Nat → Nat → Int → Option Int
  | 0, x, n, t => if x = 0 then some (if n = 1 then t else 0) else none
  | fuel + 1, x, n, t =>
    if x = 0 then some (if n = 1 then t else 0)
    else
      (jacobi_strip_go w n (w + 1) x t).bind fun p =>
        jacobi_go w fuel (n % p.1) p.1
          (if n % 4 = 3 ∧ p.1 % 4 = 3 then -p.2 else p.2)

/-- Embeds `Arith::jacobi_symbol` for odd `n`: reduce `x` modulo `n` and run
the loop with fuel `n + 1` (the swapped modulus strictly decreases). -/
def jacobi_symbol (w x n : Nat) : Option Int :=
  jacobi_go w (n + 1) (x % n) n 1

/-- Embeds `Arith::trunc_square`: `x * x` when it fits below `2 ^ w`,
otherwise the sentinel `0`; `0` also for `x = 0`. -/
def trunc_square (w x : Nat) : Nat :=
  if 0 < x then (if x < (2 ^ w - 1) / x then x * x else 0) else 0

/-- Newton iteration used to model `num::integer::sqrt`; the fuel bounds the
number of strictly decreasing guesses, so fuel `n` always suffices. -/
def isqrt_iter (n : Nat) : Nat → Nat → Nat
  | 0, guess => guess
  | fuel + 1, guess =>
    let next := (guess + n / guess) / 2
    if next < guess then isqrt_iter n fuel next else guess

/-- Model of `num::integer::sqrt`, the truncated (floor) square root; proved
below to agree with `Nat.sqrt`. -/
def isqrt (n : Nat) : Nat := if n ≤ 1 then n else isqrt_iter n n (n / 2)

/-- The table `SMALL_  2, 3, 5, 7, 11, 13, 17, 19, 23, 29, 31, 37, 41, 43, 47, 53, 59, 61, 67, 71, 73, 79, 83, 89, 97,
  101, 103, 107, 109, 113, 127, 131, 137, 139, 149, 151, 157, 163, 167, 173, 179, 181, 191, 193,
  197, 199, 211, 223, 227, 229, 233, 239, 241, 251, 257, 263, 269, 271, 277, 281, 283, 293, 307,
  311, 313, 317, 331, 337, 347, 349, 353, 359, 367, 373, 379, 383, 389, 397, 401, 409, 419, 421,
  431, 433, 439, 443, 449, 457, 461, 463, 467, 479, 487, 491, 499, 503, 509, 521, 523, 541, 547,
  557, 563, 569, 571, 577, 587, 593, 599, 601, 607, 613, 617, 619, 631, 641, 643, 647, 653, 659,
  661, 673, 677, 683, 691, 701, 709, 719, 727, 733, 739, 743, 751, 757, 761, 769, 773, 787, 797,
  809, 811, 821, 823, 827, 829, 839, 853, 857, 859, 863, 877, 881, 883, 887, 907, 911, 919, 929,
  937, 941, 947, 953, 967, 971, 977, 983, 991, 997, 1009, 1013, 1019, 1021, 1031, 1033, 1039,
  1049, 1051, 1061, 1063, 1069, 1087, 1091, 1093, 1097, 1103, 1109, 1117, 1123, 1129, 1151, 1153,
  1163, 1171, 1181, 1187, 1193, 1201, 1213, 1217, 1223, 1229, 1231, 1237, 1249, 1259, 1277, 1279,
  1283, 1289, 1291, 1297, 1301, 1303, 1307, 1319, 1321, 1327, 1361, 1367, 1373, 1381, 1399, 1409,
  1423, 1427, 1429, 1433, 1439, 1447, 1451, 1453, 1459, 1471, 1481, 1483, 1487, 1489, 1493, 1499,
  1511, 1523, 1531, 1543, 1549, 1553, 1559, 1567, 1571, 1579, 1583, 1597, 1601, 1607, 1609, 1613,
  1619, 1621, 1627, 1637, 1657, 1663, 1667, 1669, 1693, 1697, 1699, 1709, 1721, 1723, 1733, 1741,
  1747, 1753, 1759, 1777, 1783, 1787, 1789, 1801, 1811, 1823, 1831, 1847, 1861, 1867, 1871, 1873,
  1877, 1879, 1889, 1901, 1907, 1913, 1931, 1933, 1949, 1951, 1973, 1979, 1987, 1993, 1997, 1999,
  2003, 2011, 2017, 2027, 2029, 2039, 2053, 2063, 2069, 2081, 2083, 2087, 2089, 2099, 2111, 2113,
  2129, 2131, 2137, 2141, 2143, 2153, 2161, 2179, 2203, 2207, 2213, 2221, 2237, 2239, 2243, 2251,
  2267, 2269, 2273, 2281, 2287, 2293, 2297, 2309, 2311, 2333, 2339, 2341, 2347, 2351, 2357, 2371,
  2377, 2381, 2383, 2389, 2393, 2399, 2411, 2417, 2423, 2437, 2441, 2447, 2459, 2467, 2473, 2477,
  2503, 2521, 2531, 2539, 2543, 2549, 2551, 2557, 2579, 2591, 2593, 2609, 2617, 2621, 2633, 2647,
  2657, 2659, 2663, 2671, 2677, 2683, 2687, 2689, 2693, 2699, 2707, 2711, 2713, 2719, 2729, 2731,
  2741, 2749, 2753, 2767, 2777, 2789, 2791, 2797, 2801, 2803, 2819, 2833, 2837, 2843, 2851, 2857,
  2861, 2879, 2887, 2897, 2903, 2909, 2917, 2927, 2939, 2953, 2957, 2963, 2969, 2971, 2999, 3001,
  3011, 3019, 3023, 3037, 3041, 3049, 3061, 3067, 3079, 3083, 3089, 3109, 3119, 3121, 3137, 3163,
  3167, 3169, 3181, 3187, 3191, 3203, 3209, 3217, 3221, 3229, 3251, 3253, 3257, 3259, 3271, 3299,
  3301, 3307, 3313, 3319, 3323, 3329, 3331, 3343, 3347, 3359, 3361, 3371, 3373, 3389, 3391, 3407,
  3413, 3433, 3449, 3457, 3461, 3463, 3467, 3469, 3491, 3499, 3511, 3517, 3527, 3529, 3533, 3539,
  3541, 3547, 3557, 3559, 3571, 3581, 3583, 3593, 3607, 3613, 3617, 3623, 3631, 3637, 3643, 3659,
  3671, 3673, 3677, 3691, 3697, 3701, 3709, 3719, 3727, 3733, 3739, 3761, 3767, 3769, 3779, 3793,
  3797, 3803, 3821, 3823, 3833, 3847, 3851, 3853, 3863, 3877, 3881, 3889, 3907, 3911, 3917, 3919,
  3923, 3929, 3931, 3943, 3947, 3967, 3989, 4001, 4003, 4007, 4013, 4019, 4021, 4027, 4049, 4051,
  4057, 4073, 4079, 4091, 4093, 4099, 4111, 4127, 4129, 4133, 4139, 4153, 4157, 4159, 4177, 4201,
  4211, 4217, 4219, 4229, 4231, 4241, 4243, 4253, 4259, 4261, 4271, 4273, 4283, 4289, 4297, 4327,
  4337, 4339, 4349, 4357, 4363, 4373, 4391, 4397, 4409, 4421, 4423, 4441, 4447, 4451, 4457, 4463,
  4481, 4483, 4493, 4507, 4513, 4517, 4519, 4523, 4547, 4549, 4561, 4567, 4583, 4591, 4597, 4603,
  4621, 4637, 4639, 4643, 4649, 4651, 4657, 4663, 4673, 4679, 4691, 4703, 4721, 4723, 4729, 4733,
  4751, 4759, 4783, 4787, 4789, 4793, 4799, 4801, 4813, 4817, 4831, 4861, 4871, 4877, 4889, 4903,
  4909, 4919, 4931, 4933, 4937, 4943, 4951, 4957, 4967, 4969, 4973, 4987, 4993, 4999, 5003, 5009,
  5011, 5021, 5023, 5039, 5051, 5059, 5077, 5081, 5087, 5099, 5101, 5107, 5113, 5119, 5147, 5153,
  5167, 5171, 5179, 5189, 5197, 5209, 5227, 5231, 5233, 5237, 5261, 5273, 5279, 5281, 5297, 5303,
  5309, 5323, 5333, 5347, 5351, 5381, 5387, 5393, 5399, 5407, 5413, 5417, 5419, 5431, 5437, 5441,
  5443, 5449, 5471, 5477, 5479, 5483, 5501, 5503, 5507, 5519, 5521, 5527, 5531, 5557, 5563, 5569,
  5573, 5581, 5591, 5623, 5639, 5641, 5647, 5651, 5653, 5657, 5659, 5669, 5683, 5689, 5693, 5701,
  5711, 5717, 5737, 5741, 5743, 5749, 5779, 5783, 5791, 5801, 5807, 5813, 5821, 5827, 5839, 5843,
  5849, 5851, 5857, 5861, 5867, 5869, 5879, 5881, 5897, 5903, 5923, 5927, 5939, 5953, 5981, 5987,
  6007, 6011, 6029, 6037, 6043, 6047, 6053, 6067, 6073, 6079, 6089, 6091, 6101, 6113, 6121, 6131,
  6133, 6143, 6151, 6163, 6173, 6197, 6199, 6203, 6211, 6217, 6221, 6229, 6247, 6257, 6263, 6269,
  6271, 6277, 6287, 6299, 6301, 6311, 6317, 6323, 6329, 6337, 6343, 6353, 6359, 6361, 6367, 6373,
  6379, 6389, 6397, 6421, 6427, 6449, 6451, 6469, 6473, 6481, 6491, 6521, 6529, 6547, 6551, 6553,
  6563, 6569, 6571, 6577, 6581, 6599, 6607, 6619, 6637, 6653, 6659, 6661, 6673, 6679, 6689, 6691,
  6701, 6703, 6709, 6719, 6733, 6737, 6761, 6763, 6779, 6781, 6791, 6793, 6803, 6823, 6827, 6829,
  6833, 6841, 6857, 6863, 6869, 6871, 6883, 6899, 6907, 6911, 6917, 6947, 6949, 6959, 6961, 6967,
  6971, 6977, 6983, 6991, 6997, 7001, 7013, 7019, 7027, 7039, 7043, 7057, 7069, 7079, 7103, 7109,
  7121, 7127, 7129, 7151, 7159, 7177, 7187, 7193, 7207, 7211, 7213, 7219, 7229, 7237, 7243, 7247,
  7253, 7283, 7297, 7307, 7309, 7321, 7331, 7333, 7349, 7351, 7369, 7393, 7411, 7417, 7433, 7451,
  7457, 7459, 7477, 7481, 7487, 7489, 7499, 7507, 7517, 7523, 7529, 7537, 7541, 7547, 7549, 7559,
  7561, 7573, 7577, 7583, 7589, 7591, 7603, 7607, 7621, 7639, 7643, 7649, 7669, 7673, 7681, 7687,
  7691, 7699, 7703, 7717, 7723, 7727, 7741, 7753, 7757, 7759, 7789, 7793, 7817, 7823, 7829, 7841,
  7853, 7867, 7873, 7877, 7879, 7883, 7901, 7907, 7919, 7927, 7933, 7937, 7949, 7951, 7963` from `factor/mod.rs`: the first 1006 primes. -/
def smallPrimes : List Nat := [
  2, 3, 5, 7, 11, 13, 17, 19, 23, 29, 31, 37, 41, 43, 47, 53, 59, 61, 67, 71, 73, 79, 83, 89, 97,
  101, 103, 107, 109, 113, 127, 131, 137, 139, 149, 151, 157, 163, 167, 173, 179, 181, 191, 193,
  197, 199, 211, 223, 227, 229, 233, 239, 241, 251, 257, 263, 269, 271, 277, 281, 283, 293, 307,
  311, 313, 317, 331, 337, 347, 349, 353, 359, 367, 373, 379, 383, 389, 397, 401, 409, 419, 421,
  431, 433, 439, 443, 449, 457, 461, 463, 467, 479, 487, 491, 499, 503, 509, 521, 523, 541, 547,
  557, 563, 569, 571, 577, 587, 593, 599, 601, 607, 613, 617, 619, 631, 641, 643, 647, 653, 659,
  661, 673, 677, 683, 691, 701, 709, 719, 727, 733, 739, 743, 751, 757, 761, 769, 773, 787, 797,
  809, 811, 821, 823, 827, 829, 839, 853, 857, 859, 863, 877, 881, 883, 887, 907, 911, 919, 929,
  937, 941, 947, 953, 967, 971, 977, 983, 991, 997, 1009, 1013, 1019, 1021, 1031, 1033, 1039,
  1049, 1051, 1061, 1063, 1069, 1087, 1091, 1093, 1097, 1103, 1109, 1117, 1123, 1129, 1151, 1153,
  1163, 1171, 1181, 1187, 1193, 1201, 1213, 1217, 1223, 1229, 1231, 1237, 1249, 1259, 1277, 1279,
  1283, 1289, 1291, 1297, 1301, 1303, 1307, 1319, 1321, 1327, 1361, 1367, 1373, 1381, 1399, 1409,
  1423, 1427, 1429, 1433, 1439, 1447, 1451, 1453, 1459, 1471, 1481, 1483, 1487, 1489, 1493, 1499,
  1511, 1523, 1531, 1543, 1549, 1553, 1559, 1567, 1571, 1579, 1583, 1597, 1601, 1607, 1609, 1613,
  1619, 1621, 1627, 1637, 1657, 1663, 1667, 1669, 1693, 1697, 1699, 1709, 1721, 1723, 1733, 1741,
  1747, 1753, 1759, 1777, 1783, 1787, 1789, 1801, 1811, 1823, 1831, 1847, 1861, 1867, 1871, 1873,
  1877, 1879, 1889, 1901, 1907, 1913, 1931, 1933, 1949, 1951, 1973, 1979, 1987, 1993, 1997, 1999,
  2003, 2011, 2017, 2027, 2029, 2039, 2053, 2063, 2069, 2081, 2083, 2087, 2089, 2099, 2111, 2113,
  2129, 2131, 2137, 2141, 2143, 2153, 2161, 2179, 2203, 2207, 2213, 2221, 2237, 2239, 2243, 2251,
  2267, 2269, 2273, 2281, 2287, 2293, 2297, 2309, 2311, 2333, 2339, 2341, 2347, 2351, 2357, 2371,
  2377, 2381, 2383, 2389, 2393, 2399, 2411, 2417, 2423, 2437, 2441, 2447, 2459, 2467, 2473, 2477,
  2503, 2521, 2531, 2539, 2543, 2549, 2551, 2557, 2579, 2591, 2593, 2609, 2617, 2621, 2633, 2647,
  2657, 2659, 2663, 2671, 2677, 2683, 2687, 2689, 2693, 2699, 2707, 2711, 2713, 2719, 2729, 2731,
  2741, 2749, 2753, 2767, 2777, 2789, 2791, 2797, 2801, 2803, 2819, 2833, 2837, 2843, 2851, 2857,
  2861, 2879, 2887, 2897, 2903, 2909, 2917, 2927, 2939, 2953, 2957, 2963, 2969, 2971, 2999, 3001,
  3011, 3019, 3023, 3037, 3041, 3049, 3061, 3067, 3079, 3083, 3089, 3109, 3119, 3121, 3137, 3163,
  3167, 3169, 3181, 3187, 3191, 3203, 3209, 3217, 3221, 3229, 3251, 3253, 3257, 3259, 3271, 3299,
  3301, 3307, 3313, 3319, 3323, 3329, 3331, 3343, 3347, 3359, 3361, 3371, 3373, 3389, 3391, 3407,
  3413, 3433, 3449, 3457, 3461, 3463, 3467, 3469, 3491, 3499, 3511, 3517, 3527, 3529, 3533, 3539,
  3541, 3547, 3557, 3559, 3571, 3581, 3583, 3593, 3607, 3613, 3617, 3623, 3631, 3637, 3643, 3659,
  3671, 3673, 3677, 3691, 3697, 3701, 3709, 3719, 3727, 3733, 3739, 3761, 3767, 3769, 3779, 3793,
  3797, 3803, 3821, 3823, 3833, 3847, 3851, 3853, 3863, 3877, 3881, 3889, 3907, 3911, 3917, 3919,
  3923, 3929, 3931, 3943, 3947, 3967, 3989, 4001, 4003, 4007, 4013, 4019, 4021, 4027, 4049, 4051,
  4057, 4073, 4079, 4091, 4093, 4099, 4111, 4127, 4129, 4133, 4139, 4153, 4157, 4159, 4177, 4201,
  4211, 4217, 4219, 4229, 4231, 4241, 4243, 4253, 4259, 4261, 4271, 4273, 4283, 4289, 4297, 4327,
  4337, 4339, 4349, 4357, 4363, 4373, 4391, 4397, 4409, 4421, 4423, 4441, 4447, 4451, 4457, 4463,
  4481, 4483, 4493, 4507, 4513, 4517, 4519, 4523, 4547, 4549, 4561, 4567, 4583, 4591, 4597, 4603,
  4621, 4637, 4639, 4643, 4649, 4651, 4657, 4663, 4673, 4679, 4691, 4703, 4721, 4723, 4729, 4733,
  4751, 4759, 4783, 4787, 4789, 4793, 4799, 4801, 4813, 4817, 4831, 4861, 4871, 4877, 4889, 4903,
  4909, 4919, 4931, 4933, 4937, 4943, 4951, 4957, 4967, 4969, 4973, 4987, 4993, 4999, 5003, 5009,
  5011, 5021, 5023, 5039, 5051, 5059, 5077, 5081, 5087, 5099, 5101, 5107, 5113, 5119, 5147, 5153,
  5167, 5171, 5179, 5189, 5197, 5209, 5227, 5231, 5233, 5237, 5261, 5273, 5279, 5281, 5297, 5303,
  5309, 5323, 5333, 5347, 5351, 5381, 5387, 5393, 5399, 5407, 5413, 5417, 5419, 5431, 5437, 5441,
  5443, 5449, 5471, 5477, 5479, 5483, 5501, 5503, 5507, 5519, 5521, 5527, 5531, 5557, 5563, 5569,
  5573, 5581, 5591, 5623, 5639, 5641, 5647, 5651, 5653, 5657, 5659, 5669, 5683, 5689, 5693, 5701,
  5711, 5717, 5737, 5741, 5743, 5749, 5779, 5783, 5791, 5801, 5807, 5813, 5821, 5827, 5839, 5843,
  5849, 5851, 5857, 5861, 5867, 5869, 5879, 5881, 5897, 5903, 5923, 5927, 5939, 5953, 5981, 5987,
  6007, 6011, 6029, 6037, 6043, 6047, 6053, 6067, 6073, 6079, 6089, 6091, 6101, 6113, 6121, 6131,
  6133, 6143, 6151, 6163, 6173, 6197, 6199, 6203, 6211, 6217, 6221, 6229, 6247, 6257, 6263, 6269,
  6271, 6277, 6287, 6299, 6301, 6311, 6317, 6323, 6329, 6337, 6343, 6353, 6359, 6361, 6367, 6373,
  6379, 6389, 6397, 6421, 6427, 6449, 6451, 6469, 6473, 6481, 6491, 6521, 6529, 6547, 6551, 6553,
  6563, 6569, 6571, 6577, 6581, 6599, 6607, 6619, 6637, 6653, 6659, 6661, 6673, 6679, 6689, 6691,
  6701, 6703, 6709, 6719, 6733, 6737, 6761, 6763, 6779, 6781, 6791, 6793, 6803, 6823, 6827, 6829,
  6833, 6841, 6857, 6863, 6869, 6871, 6883, 6899, 6907, 6911, 6917, 6947, 6949, 6959, 6961, 6967,
  6971, 6977, 6983, 6991, 6997, 7001, 7013, 7019, 7027, 7039, 7043, 7057, 7069, 7079, 7103, 7109,
  7121, 7127, 7129, 7151, 7159, 7177, 7187, 7193, 7207, 7211, 7213, 7219, 7229, 7237, 7243, 7247,
  7253, 7283, 7297, 7307, 7309, 7321, 7331, 7333, 7349, 7351, 7369, 7393, 7411, 7417, 7433, 7451,
  7457, 7459, 7477, 7481, 7487, 7489, 7499, 7507, 7517, 7523, 7529, 7537, 7541, 7547, 7549, 7559,
  7561, 7573, 7577, 7583, 7589, 7591, 7603, 7607, 7621, 7639, 7643, 7649, 7669, 7673, 7681, 7687,
  7691, 7699, 7703, 7717, 7723, 7727, 7741, 7753, 7757, 7759, 7789, 7793, 7817, 7823, 7829, 7841,
  7853, 7867, 7873, 7877, 7879, 7883, 7901, 7907, 7919, 7927, 7933, 7937, 7949, 7951, 7963]

/-- Result record of `Factorization::run`. -/
structure Factorization where
  num : Nat
  is_prime : Bool
  factors : List Nat
  deriving Repr, DecidableEq

/-- Inner `while num % prime == 0` loop of `Factorization::factorize_trial`:
push the prime and divide as long as it divides; fuel `num` suffices since
`num` at least halves at each division. -/
def divide_out (p : Nat) : Nat → Nat → List Nat × Nat
  | 0, num => ([], num)
  | fuel + 1, num =>
    if num % p = 0 then
      let r := divide_out p fuel (num / p)
      (p :: r.1, r.2)
    else ([], num)

/-- Embeds `Factorization::factorize_trial`: trial division by the small
primes in order, stopping early when the cofactor reaches `1`.  Returns the
appended factors and the remaining cofactor. -/
def factorize_trial_go : List Nat → Nat → List Nat × Nat
  | [], num => ([], num)
  | p :: ps, num =>
    let r := divide_out p num num
    if r.2 = 1 then (r.1, 1)
    else
      let s := factorize_trial_go ps r.2
      (r.1 ++ s.1, s.2)

/-- Embeds `Factorization::factorize_trial` over the built-in prime table. -/
def factorize_trial (num : Nat) : List Nat × Nat :=
  factorize_trial_go smallPrimes num

/-- The `for _ in 0..10` search loop of `Factorization::factorize_fermat`:
try up to the given number of candidates `a`, returning the pushed factors
`(a - b, a + b)` repeated `level / 2` times on success, and `([], num)` when
no square is found or `trunc_square` signals overflow with its sentinel. -/
def fermat_loop (w num level : Nat) : Nat → Nat → Nat → List Nat × Nat
  | 0, _, _ => ([], num)
  | iters + 1, a, asq =>
    let bsq := asq - num
    let b := isqrt bsq
    if trunc_square w b = bsq then
      (List.flatten (List.replicate (level / 2) [a - b, a + b]), 1)
    else
      let a' := a + 1
      let asq' := trunc_square w a'
      if asq' = 0 then ([], num) else fermat_loop w num level iters a' asq'

/-- Embeds `Factorization::factorize_fermat`.  The primality test
`prime::is_odd_prime_factor` is abstracted as the oracle parameter; the fuel
bounds the recursion depth (the recursive call descends to `sqrt num`). -/
def factorize_fermat (w : Nat) (oracle : Nat → Bool) :
    Nat → Nat → Nat → List Nat × Nat
  | 0, num, _ => ([], num)
  | fuel + 1, num, level =>
    let a := isqrt num
    let asq := trunc_square w a
    if asq = num then
      if oracle a then (List.replicate level a, 1)
      else
        let r := factorize_fermat w oracle fuel a (level * 2)
        if 1 < r.2 then (r.1, num) else (r.1, r.2)
    else
      let a1 := a + 1
      let asq1 := trunc_square w a1
      if asq1 = 0 then ([], num) else fermat_loop w num level 10 a1 asq1

/-- Embeds `Factorization::factorize_until_completed`.  The whole elliptic
stage (`factorize_elliptic`, lines 308-333, including its worker threads and
recursive factorization of non-prime divisors) is abstracted as the
parameter `ell`, which returns the factors it appends together with the new
cofactor; the primality oracle is likewise a parameter.  The fuel bounds the
number of outer loop iterations. -/
def factorize_until_completed (w : Nat) (oracle : Nat → Bool)
    (ell : Nat → List Nat × Nat) : Nat → Nat → List Nat
  | 0, _ => []
  | fuel + 1, num =>
    if num ≤ 1 then []
    else
      let r := factorize_fermat w oracle num num 2
      if r.2 = 1 then r.1
      else if oracle r.2 then r.1 ++ [r.2]
      else
        let e := ell r.2
        r.1 ++ e.1 ++ factorize_until_completed w oracle ell fuel e.2

/-- Insertion of one element into a sorted list; `insertion_sort` models
`Vec::sort` (a stable sort, so any sorting algorithm yields its output). -/
def insert_sorted (a : Nat) : List Nat → List Nat
  | [] => [a]
  | b :: l => if a ≤ b then a :: b :: l else b :: insert_sorted a l

/-- Model of `Vec::sort` on the factor list. -/
def insertion_sort : List Nat → List Nat
  | [] => []
  | a :: l => insert_sorted a (insertion_sort l)

/-- The walk of `Factorization::prune_duplicate_factors` over the reversed
sorted list: keep a factor only when it still divides the running cofactor. -/
def prune_go : List Nat → Nat → List Nat
  | [], _ => []
  | f :: fs, k =>
    if k % f = 0 then f :: prune_go fs (k / f) else prune_go fs k

/-- Embeds `Factorization::prune_duplicate_factors`: sort, walk from the
largest factor down keeping divisors of the running cofactor, reverse. -/
def prune_duplicate_factors (num : Nat) (factors : List Nat) : List Nat :=
  (prune_go (insertion_sort factors).reverse num).reverse

/-- Embeds `Factorization::run` for `W`-bit input, with the primality test
and the elliptic stage abstracted as parameters and explicit loop fuel. -/
def run (w : Nat) (oracle : Nat → Bool) (ell : Nat → List Nat × Nat)
    (fuel num : Nat) : Factorization :=
  if num ≤ 1 then { num := num, is_prime := false, factors := [] }
  else
    let t := factorize_trial num
    let fs := t.1 ++ factorize_until_completed w oracle ell fuel t.2
    if 1 < fs.length then
      { num := num, is_prime := false, factors := prune_duplicate_factors num fs }
    else { num := num, is_prime := true, factors := fs }

/-- Loop of `Factorization::prime_factor_repr`, walking the reversed factor
list while dividing the running cofactor `k`, counting equal runs, pushing a
pair whenever the factor changes, and stopping when `k` reaches `1`. -/
def prime_factor_repr_go : List Nat → Nat → Nat → Nat → List (Nat × Nat)
  | [], _, _, _ => []
  | f :: fs, k, count, prev =>
    let push1 : List (Nat × Nat) := if f ≠ prev ∧ 0 < count then [(prev, count)] else []
    let count' := (if f ≠ prev ∧ 0 < count then 0 else count) + 1
    let k' := k / f
    if k' = 1 then push1 ++ [(f, count')]
    else push1 ++ prime_factor_repr_go fs k' count' f

/-- Embeds `Factorization::prime_factor_repr` as a function of the `num` and
`factors` fields of the result record. -/
def prime_factor_repr (num : Nat) (factors : List Nat) : List (Nat × Nat) :=
  (prime_factor_repr_go factors.reverse num 0 0).reverse

/-- Modelled from the spec: the run-length encoding of a list, grouping
equal adjacent elements into `(value, count)` pairs in the same order. -/
def rle_spec : List Nat → List (Nat × Nat)
  | [] => []
  | x :: xs =>
    match rle_spec xs with
    | [] => [(x, 1)]
    | (p, c) :: rest => if x = p then (x, c + 1) :: rest else (x, 1) :: (p, c) :: rest

/-- Shared record of one elliptic-curve stage (`MaybeFactors`): the residual
cofactor and the factors found so far, each flagged with whether the finder
is certain it is prime. -/
structure MaybeFactors where
  num : Nat
  factors : List (Nat × Bool)
  deriving Repr, DecidableEq

/-- The 48 increments of the 2-3-5-7 wheel in `Factorization::wheel_worker`. -/
def wheel_inc : List Nat := [
  2, 4, 2, 4, 6, 2, 6, 4, 2, 4, 6, 6, 2, 6, 4, 2, 6, 4, 6, 8, 4, 2, 4, 2, 4, 8, 6, 4, 6,
  2, 4, 6, 2, 6, 6, 4, 2, 4, 6, 2, 6, 4, 2, 4, 2, 10, 2, 10]

/-- Inner peel loop of `Factorization::wheel_worker`: divide the candidate
out repeatedly, pushing `(k, true)` for every division. -/
def wheel_divide (k : Nat) : Nat → Nat → List (Nat × Bool) → Option (Nat × List (Nat × Bool))
  | 0, _, _ => none
  | fuel + 1, num, fs =>
    let num' := num / k
    let fs' := fs ++ [(k, true)]
    if num' % k ≠ 0 then some (num', fs') else wheel_divide k fuel num' fs'

/-- Embeds the candidate loop of `Factorization::wheel_worker` in its
single-threaded semantics (every lock acquisition succeeds, and the shared
record is threaded through the recursion).  `i` indexes the wheel increment
cycle, `k` is the previous candidate and `num` the worker's local cofactor.
Returns the final shared record and the boolean sent on the channel. -/
def wheel_worker_go : Nat → Nat → Nat → Nat → MaybeFactors → Option (MaybeFactors × Bool)
  | 0, _, _, _, _ => none
  | fuel + 1, i, k, num, mf =>
    let k' := k + wheel_inc.getD (i % 48) 0
    if num / k' < k' then
      some ({ num := 1, factors := mf.factors ++ [(num, false)] }, true)
    else if num % k' = 0 then
      if mf.num < k' ∨ mf.factors.any (fun e => e.1 = k') then
        some (mf, decide (mf.num = 1))
      else
        match wheel_divide k' num num mf.factors with
        | none => none
        | some (num', fs') =>
          wheel_worker_go fuel (i + 1) k' num' { num := num', factors := fs' }
    else wheel_worker_go fuel (i + 1) k' num mf

/-- Embeds `Factorization::wheel_worker` started on cofactor `num`, with the
given loop fuel: the candidate starts at `7991` before the first increment
and the shared record starts as `{ num, [] }`. -/
def wheel_worker (fuel num : Nat) : Option (MaybeFactors × Bool) :=
  wheel_worker_go fuel 0 7991 num { num := num, factors := [] }

/-- Digit-accumulation loop of Rust's `u128::from_str`: fails on the first
non-digit character. -/
def decimal_go : List Char → Nat → Option Nat
  | [], acc => some acc
  | c :: cs, acc =>
    if c.isDigit then decimal_go cs (acc * 10 + (c.toNat - 48)) else none

/-- Drops the optional leading plus sign accepted by `u128::from_str`. -/
def plus_strip : List Char → List Char
  | [] => []
  | c :: rest => if c = '+' then rest else c :: rest

/-- Model of `str::parse::<u128>()`: an optional leading plus sign, then at
least one decimal digit, with the value required to fit in 128 bits. -/
def parse_u128 (s : List Char) : Option Nat :=
  let t := plus_strip s
  if t = [] then none
  else (decimal_go t 0).bind fun v => if v < 2 ^ 128 then some v else none

/-- Embeds the `retain` call of `parser::parse_to_int`: drop underscores. -/
def strip_underscores (s : List Char) : List Char :=
  s.filter fun c => c ≠ '_'

/-- Embeds `parser::parse_to_int`: try the plain parse first, then retry
with underscores removed. -/
def parse_to_int (s : String) : Option Nat :=
  match parse_u128 s.data with
  | some v => some v
  | none => parse_u128 (strip_underscores s.data)

/-- Embeds `parser::parse_arguments` on the argument list (the `&mut` is
irrelevant to the result); `Except.error` carries the Rust error message. -/
def parse_arguments (args : List String) : Except String (Nat × Bool) :=
  match args with
  | [] => Except.error "no argument, nothing to factorize."
  | [a] =>
    if a = "--help" ∨ a = "-h" then Except.error "help"
    else if a = "--version" ∨ a = "-v" then Except.error "help"
    else
      match parse_to_int a with
      | some num => Except.ok (num, false)
      | none => Except.error "cannot parse argument to a 128 bit unsigned integer."
  | [a, b] =>
    if a = "--pretty" ∨ a = "-p" then
      match parse_to_int b with
      | some num => Except.ok (num, true)
      | none => Except.error "cannot parse 2nd argument to a 128 bit unsigned integer."
    else if b = "--pretty" ∨ b = "-p" then
      match parse_to_int a with
      | some num => Except.ok (num, true)
      | none => Except.error "cannot parse 1st argument to a 128 bit unsigned integer."
    else Except.error "unable to parse args, check instructions or pass --help."
  | _ => Except.error "unable to parse args, check instructions or pass --help."

/-- Specification-side reading of "parses as a 128-bit unsigned decimal,
underscores ignored": after dropping underscores the string is a nonempty
all-digit string denoting `n`, with `n` below `2 ^ 128`. -/
def dec_value (s : List Char) : Nat :=
  s.foldl (fun acc c => acc * 10 + (c.toNat - 48)) 0


theorem csub_eq {x y : Nat} (h : y ≤ x) : csub x y = some (x - y) := by
  simp [csub, h]

theorem cadd_eq {w x y : Nat} (h : x + y < 2 ^ w) : cadd w x y = some (x + y) := by
  simp [cadd, h]

theorem add_mod_unchecked_spec {w m : Nat} (x y : Nat) (hmw : m < 2 ^ w)
    (hx : x ≤ m) (hy : y ≤ m) :
    ∃ z, add_mod_unchecked w x y m = some z ∧ z % m = (x + y) % m ∧ z ≤ m ∧
      ((x < m ∨ y < m) → z < m) := by
  unfold add_mod_unchecked
  rw [csub_eq hy]
  by_cases hlt : x < m - y
  · have hsum : x + y < m := by omega
    refine ⟨x + y, ?_, rfl, by omega, fun _ => hsum⟩
    simp [hlt, cadd_eq (lt_trans hsum hmw)]
  · have hmax : max x y ≤ m := by omega
    have h2 : m - max x y ≤ min x y := by omega
    refine ⟨min x y - (m - max x y), ?_, ?_, by omega, by omega⟩
    · simp [hlt, csub_eq hmax, csub_eq h2]
    · have he : min x y - (m - max x y) = x + y - m := by omega
      rw [he, show x + y = x + y - m + m by omega, Nat.add_sub_cancel,
        Nat.add_mod_right]

theorem mult_mod_unchecked_go_spec {w m : Nat} (hmw : m < 2 ^ w) :
    ∀ fuel y x res, y ≤ fuel → x ≤ m → res < m →
      mult_mod_unchecked_go w m fuel x y res = some ((res + x * y) % m) := by
  intro fuel
  induction fuel with
  | zero =>
    intro y x res hy hx hres
    have hy0 : y = 0 := Nat.le_zero.mp hy
    subst hy0
    simp [mult_mod_unchecked_go, Nat.mod_eq_of_lt hres]
  | succ fuel ih =>
    intro y x res hy hx hres
    by_cases hy0 : y = 0
    · subst hy0
      simp [mult_mod_unchecked_go, Nat.mod_eq_of_lt hres]
    · obtain ⟨z1, hz1, hz1mod, hz1le, hz1lt⟩ :=
        add_mod_unchecked_spec (w := w) (m := m) res x hmw (le_of_lt hres) hx
      obtain ⟨z2, hz2, hz2mod, hz2le, _⟩ :=
        add_mod_unchecked_spec (w := w) (m := m) x x hmw hx hx
      have hdiv : y / 2 ≤ fuel := by omega
      by_cases hpar : y % 2 = 1
      · rw [show mult_mod_unchecked_go w m (fuel + 1) x y res
            = (if y % 2 = 1 then add_mod_unchecked w res x m else some res).bind fun res' =>
                (add_mod_unchecked w x x m).bind fun x' =>
                  mult_mod_unchecked_go w m fuel x' (y / 2) res' by
              simp [mult_mod_unchecked_go, hy0]]
        rw [if_pos hpar, hz1, Option.some_bind, hz2, Option.some_bind,
          ih (y / 2) z2 z1 hdiv hz2le (hz1lt (Or.inl hres))]
        congr 1
        have h1 : Nat.ModEq m z1 (res + x) := hz1mod
        have h2 : Nat.ModEq m (z2 * (y / 2)) ((x + x) * (y / 2)) :=
          Nat.ModEq.mul_right _ hz2mod
        have h3 : Nat.ModEq m (z1 + z2 * (y / 2)) (res + x + (x + x) * (y / 2)) :=
          Nat.ModEq.add h1 h2
        have h4 : res + x + (x + x) * (y / 2) = res + x * y := by
          have hy2 : 2 * (y / 2) + 1 = y := by omega
          calc res + x + (x + x) * (y / 2)
              = res + x * (2 * (y / 2) + 1) := by ring
            _ = res + x * y := by rw [hy2]
        exact h4 ▸ h3
      · rw [show mult_mod_unchecked_go w m (fuel + 1) x y res
            = (if y % 2 = 1 then add_mod_unchecked w res x m else some res).bind fun res' =>
                (add_mod_unchecked w x x m).bind fun x' =>
                  mult_mod_unchecked_go w m fuel x' (y / 2) res' by
              simp [mult_mod_unchecked_go, hy0]]
        rw [if_neg hpar, Option.some_bind, hz2, Option.some_bind,
          ih (y / 2) z2 res hdiv hz2le hres]
        congr 1
        have h2 : Nat.ModEq m (z2 * (y / 2)) ((x + x) * (y / 2)) :=
          Nat.ModEq.mul_right _ hz2mod
        have h3 : Nat.ModEq m (res + z2 * (y / 2)) (res + (x + x) * (y / 2)) :=
          Nat.ModEq.add_left res h2
        have h4 : res + (x + x) * (y / 2) = res + x * y := by
          have hy2 : 2 * (y / 2) = y := by omega
          calc res + (x + x) * (y / 2) = res + x * (2 * (y / 2)) := by ring
            _ = res + x * y := by rw [hy2]
        exact h4 ▸ h3

theorem mult_mod_unchecked_spec {w m : Nat} (x y : Nat) (hm : 0 < m) (hmw : m < 2 ^ w)
    (hx : x ≤ m) : mult_mod_unchecked w x y m = some (x * y % m) := by
  unfold mult_mod_unchecked
  by_cases hx0 : x = 0
  · subst hx0; simp
  · rw [if_neg hx0, mult_mod_unchecked_go_spec hmw y y x 0 le_rfl hx hm, Nat.zero_add]

/-- Claim C2: for every `x`, `y` and every modulus `m` with
`1 ≤ m ≤ 2 ^ w - 1` (including the full-width maximum), `Arith::mult_mod`
returns exactly `(x * y) mod m`, and — since the result is `some` in the
checked-arithmetic embedding — no intermediate of the Russian-peasant
computation over the safe add ever exceeds `w` bits, so no two's-complement
wrap occurs. -/
theorem claim2_mult_mod_exact (w x y m : Nat) (hm : 1 ≤ m) (hmw : m ≤ 2 ^ w - 1) :
    mult_mod w x y m = some (x * y % m) := by
  have hpos : 0 < 2 ^ w := Nat.pos_pow_of_pos w (by omega)
  have hmw' : m < 2 ^ w := by omega
  have hxm : ∀ a : Nat, a % m ≤ m := fun a => le_of_lt (Nat.mod_lt a (by omega))
  unfold mult_mod
  by_cases hx : x < m
  · by_cases hy : y < m
    · rw [if_pos hx, if_pos hy]
      exact mult_mod_unchecked_spec x y (by omega) hmw' (le_of_lt hx)
    · rw [if_pos hx, if_neg hy, mult_mod_unchecked_spec x (y % m) (by omega) hmw' (le_of_lt hx)]
      exact congrArg some ((Nat.ModEq.refl x).mul (Nat.mod_modEq y m))
  · by_cases hy : y < m
    · rw [if_neg hx, if_pos hy, mult_mod_unchecked_spec (x % m) y (by omega) hmw' (hxm x)]
      exact congrArg some ((Nat.mod_modEq x m).mul (Nat.ModEq.refl y))
    · rw [if_neg hx, if_neg hy, mult_mod_unchecked_spec (x % m) (y % m) (by omega) hmw' (hxm x)]
      exact congrArg some ((Nat.mod_modEq x m).mul (Nat.mod_modEq y m))

/-- Witness for claim C2 at `w = 32`, `x = y = 2 ^ 32 - 2`, `m = 2 ^ 32 - 1`
(the full-width maximum modulus): the result is `some 1` with no wrap. -/
theorem claim2_mult_mod_exact_witness :
    mult_mod 32 4294967294 4294967294 4294967295 = some 1 := by
  rw [claim2_mult_mod_exact 32 4294967294 4294967294 4294967295 (by decide) (by decide)]

theorem exp_mod_unchecked_go_spec {w m : Nat} (hm : 0 < m) (hmw : m < 2 ^ w) :
    ∀ fuel ex base res, ex ≤ fuel → base < m → res < m →
      exp_mod_unchecked_go w m fuel base ex res = some (res * base ^ ex % m) := by
  intro fuel
  induction fuel with
  | zero =>
    intro ex base res hex hbase hres
    have hex0 : ex = 0 := by omega
    subst hex0
    simp [exp_mod_unchecked_go, Nat.mod_eq_of_lt hres]
  | succ fuel ih =>
    intro ex base res hex hbase hres
    by_cases hex0 : ex = 0
    · subst hex0; simp [exp_mod_unchecked_go, Nat.mod_eq_of_lt hres]
    · have hr := mult_mod_unchecked_spec (m := m) (w := w) res base hm hmw (by omega)
      have hb := mult_mod_unchecked_spec (m := m) (w := w) base base hm hmw (by omega)
      have hrlt : res * base % m < m := Nat.mod_lt _ hm
      have hblt : base * base % m < m := Nat.mod_lt _ hm
      have hdiv : ex / 2 ≤ fuel := by omega
      rw [show exp_mod_unchecked_go w m (fuel + 1) base ex res
          = (if ex % 2 = 1 then mult_mod_unchecked w res base m else some res).bind fun res' =>
              (mult_mod_unchecked w base base m).bind fun base' =>
                exp_mod_unchecked_go w m fuel base' (ex / 2) res' by
            simp [exp_mod_unchecked_go, hex0]]
      by_cases hpar : ex % 2 = 1
      · rw [if_pos hpar, hr, Option.some_bind, hb, Option.some_bind,
          ih (ex / 2) (base * base % m) (res * base % m) hdiv hblt hrlt]
        congr 1
        have hme : Nat.ModEq m ((res * base % m) * (base * base % m) ^ (ex / 2))
            (res * base * (base * base) ^ (ex / 2)) :=
          (Nat.mod_modEq (res * base) m).mul ((Nat.mod_modEq (base * base) m).pow (ex / 2))
        have harith : res * base * (base * base) ^ (ex / 2) = res * base ^ ex := by
          rw [show base * base = base ^ 2 by ring, ← pow_mul]
          conv_rhs => rw [show ex = 1 + 2 * (ex / 2) by omega]
          rw [pow_add, pow_one]
          ring
        exact harith ▸ hme
      · rw [if_neg hpar, Option.some_bind, hb, Option.some_bind,
          ih (ex / 2) (base * base % m) res hdiv hblt hres]
        congr 1
        have hme : Nat.ModEq m (res * (base * base % m) ^ (ex / 2))
            (res * (base * base) ^ (ex / 2)) :=
          (Nat.ModEq.refl res).mul ((Nat.mod_modEq (base * base) m).pow (ex / 2))
        have harith : res * (base * base) ^ (ex / 2) = res * base ^ ex := by
          rw [show base * base = base ^ 2 by ring, ← pow_mul]
          conv_rhs => rw [show ex = 2 * (ex / 2) by omega]
        exact harith ▸ hme

theorem exp_mod_unchecked_spec {w m : Nat} (base ex : Nat) (hm : 0 < m) (hmw : m < 2 ^ w)
    (hbase : base < m) :
    exp_mod_unchecked w base ex m = some (if base = 0 then 0 else base ^ ex % m) := by
  unfold exp_mod_unchecked
  by_cases hb0 : base = 0
  · simp [hb0]
  · rw [if_neg hb0, if_neg hb0,
      exp_mod_unchecked_go_spec hm hmw ex ex base 1 le_rfl hbase (by omega), one_mul]

theorem exp_mod_spec {w m : Nat} (base ex : Nat) (hm : 0 < m) (hmw : m < 2 ^ w) :
    exp_mod w base ex m = some (if base % m = 0 then 0 else (base % m) ^ ex % m) := by
  unfold exp_mod
  by_cases hb : base < m
  · rw [if_pos hb, exp_mod_unchecked_spec base ex hm hmw hb, Nat.mod_eq_of_lt hb]
  · rw [if_neg hb, exp_mod_unchecked_spec (base % m) ex hm hmw (Nat.mod_lt _ hm)]

/-- Claim C4 counterexample: the claim asserts `exp_mod(b, 0, m) = 1` for
every `b ≠ 0` and every modulus `m ≥ 1`, but at `b = 2`, `m = 2` (any width)
the code reduces the base to `2 mod 2 = 0` and its `base == 0` early return
then yields `0`, not `1`. -/
theorem claim4_exp_counterexample :
    (2 : Nat) ≠ 0 ∧ (1 : Nat) ≤ 2 ∧ exp_mod 32 2 0 2 = some 0 ∧
      exp_mod 32 2 0 2 ≠ some 1 := by
  refine ⟨by decide, by decide, by decide, by decide⟩

/-- Claim C4, amended: for every modulus `1 ≤ m ≤ 2 ^ w - 1`,
`exp_mod(b, 0, m) = 1` holds for every `b` that `m` does not divide (when
`m` divides `b` the code returns `0` for every exponent, `0` included);
and for all `b`, `e`, `f` the homomorphism law
`exp_mod(b, e, m) * exp_mod(b, f, m) ≡ exp_mod(b, e + f, m) (mod m)` holds,
with every result in range and no machine overflow. -/
theorem claim4_exp_mod (w b e f m : Nat) (hm : 1 ≤ m) (hmw : m ≤ 2 ^ w - 1) :
    (b % m ≠ 0 → exp_mod w b 0 m = some 1) ∧
    (b % m = 0 → exp_mod w b e m = some 0) ∧
    ∃ u v t, exp_mod w b e m = some u ∧ exp_mod w b f m = some v ∧
      exp_mod w b (e + f) m = some t ∧ Nat.ModEq m (u * v) t := by
  have hpos : 0 < 2 ^ w := Nat.pos_pow_of_pos w (by omega)
  have hmw' : m < 2 ^ w := by omega
  have hm0 : 0 < m := by omega
  refine ⟨?_, ?_, ?_⟩
  · intro hb
    rw [exp_mod_spec b 0 hm0 hmw', if_neg hb, pow_zero]
    have h2m : 1 < m := by
      rcases Nat.lt_or_ge 1 m with h | h
      · exact h
      · have hm1 : m = 1 := by omega
        exact absurd (hm1 ▸ Nat.mod_one b) hb
    rw [Nat.mod_eq_of_lt h2m]
  · intro hb
    rw [exp_mod_spec b e hm0 hmw', if_pos hb]
  · by_cases hb : b % m = 0
    · refine ⟨0, 0, 0, ?_, ?_, ?_, Nat.ModEq.refl 0⟩ <;>
        rw [exp_mod_spec _ _ hm0 hmw', if_pos hb]
    · refine ⟨(b % m) ^ e % m, (b % m) ^ f % m, (b % m) ^ (e + f) % m, ?_, ?_, ?_, ?_⟩
      · rw [exp_mod_spec _ _ hm0 hmw', if_neg hb]
      · rw [exp_mod_spec _ _ hm0 hmw', if_neg hb]
      · rw [exp_mod_spec _ _ hm0 hmw', if_neg hb]
      · have h1 : Nat.ModEq m ((b % m) ^ e % m * ((b % m) ^ f % m))
            ((b % m) ^ e * (b % m) ^ f) :=
          (Nat.mod_modEq _ m).mul (Nat.mod_modEq _ m)
        have h2 : (b % m) ^ e * (b % m) ^ f = (b % m) ^ (e + f) := (pow_add _ e f).symm
        exact (h2 ▸ h1).trans (Nat.mod_modEq _ m).symm

/-- Witness for claim C4 at `w = 32`, `b = 3`, `e = 2`, `f = 3`, `m = 10`:
`exp_mod(3, 0, 10) = 1` and `exp_mod(3, 2, 10) * exp_mod(3, 3, 10) = 9 * 7 ≡
3 = exp_mod(3, 5, 10) (mod 10)`. -/
theorem claim4_exp_mod_witness :
    exp_mod 32 3 0 10 = some 1 ∧ exp_mod 32 3 2 10 = some 9 ∧
      exp_mod 32 3 3 10 = some 7 ∧ exp_mod 32 3 5 10 = some 3 ∧
      Nat.ModEq 10 (9 * 7) 3 := by
  have h := claim4_exp_mod 32 3 2 3 10 (by decide) (by decide)
  exact ⟨h.1 (by decide), by decide, by decide, by decide, by decide⟩

theorem sub_mod_unchecked_spec {m : Nat} (x y : Nat) (hx : x < m) (hy : y < m) :
    ∃ z, sub_mod_unchecked x y m = some z ∧ z < m ∧ Nat.ModEq m (z + y) x := by
  unfold sub_mod_unchecked
  by_cases h : y ≤ x
  · refine ⟨x - y, by simp [h, csub_eq h], by omega, ?_⟩
    rw [show x - y + y = x by omega]
  · have hxy : x ≤ y := by omega
    have h2 : y - x ≤ m := by omega
    refine ⟨m - (y - x), ?_, by omega, ?_⟩
    · simp [h, csub_eq hxy, csub_eq h2]
    · rw [show m - (y - x) + y = m + x by omega]
      exact Nat.add_mod_left m x

theorem multip_inv_go_spec {w m : Nat} (x0 : Nat) (hm : 2 ≤ m) (hmw : m < 2 ^ w) :
    ∀ fuel rem rem_new inv inv_new,
      rem_new ≤ fuel → rem_new < rem → rem ≤ m →
      inv < m → inv_new < m →
      Int.ModEq (m : Int) (rem : Int) ((inv : Int) * (x0 : Int)) →
      Int.ModEq (m : Int) (rem_new : Int) ((inv_new : Int) * (x0 : Int)) →
      ∃ r, multip_inv_go w m fuel rem rem_new inv inv_new = some r ∧
        (Nat.gcd rem rem_new = 1 → r < m ∧ x0 * r % m = 1) ∧
        (1 < Nat.gcd rem rem_new → r = 0) := by
  intro fuel
  induction fuel with
  | zero =>
    intro rem rem_new inv inv_new hfuel hlt hrem hinv hinv_new hmod1 hmod2
    have hrn : rem_new = 0 := by omega
    subst hrn
    rw [Nat.gcd_zero_right]
    by_cases h1 : 1 < rem
    · exact ⟨0, by simp [multip_inv_go, h1], fun hg => by omega, fun _ => rfl⟩
    · have hrem1 : rem = 1 := by omega
      refine ⟨inv, by simp [multip_inv_go, h1], fun _ => ⟨hinv, ?_⟩, fun hg => by omega⟩
      have h1inv : Int.ModEq (m : Int) 1 ((inv : Int) * (x0 : Int)) := by
        rw [hrem1] at hmod1; exact_mod_cast hmod1
      have hnat : Nat.ModEq m (inv * x0) 1 := by
        have := h1inv.symm
        rw [show ((inv : Int) * (x0 : Int)) = ((inv * x0 : Nat) : Int) by push_cast; ring,
          show (1 : Int) = ((1 : Nat) : Int) by norm_num] at this
        exact Int.natCast_modEq_iff.mp this
      have := hnat
      unfold Nat.ModEq at this
      rw [Nat.mod_eq_of_lt (by omega : 1 < m)] at this
      rw [Nat.mul_comm x0 inv]
      exact this
  | succ fuel ih =>
    intro rem rem_new inv inv_new hfuel hlt hrem hinv hinv_new hmod1 hmod2
    by_cases hrn : rem_new = 0
    · subst hrn
      rw [Nat.gcd_zero_right]
      by_cases h1 : 1 < rem
      · exact ⟨0, by simp [multip_inv_go, h1], fun hg => by omega, fun _ => rfl⟩
      · have hrem1 : rem = 1 := by omega
        refine ⟨inv, by simp [multip_inv_go, h1], fun _ => ⟨hinv, ?_⟩, fun hg => by omega⟩
        have h1inv : Int.ModEq (m : Int) 1 ((inv : Int) * (x0 : Int)) := by
          rw [hrem1] at hmod1; exact_mod_cast hmod1
        have hnat : Nat.ModEq m (inv * x0) 1 := by
          have := h1inv.symm
          rw [show ((inv : Int) * (x0 : Int)) = ((inv * x0 : Nat) : Int) by push_cast; ring,
            show (1 : Int) = ((1 : Nat) : Int) by norm_num] at this
          exact Int.natCast_modEq_iff.mp this
        have := hnat
        unfold Nat.ModEq at this
        rw [Nat.mod_eq_of_lt (by omega : 1 < m)] at this
        rw [Nat.mul_comm x0 inv]
        exact this
    · have hrnpos : 0 < rem_new := by omega
      have hquo_le : rem / rem_new * rem_new ≤ rem := Nat.div_mul_le_self rem rem_new
      have hquo_lt : rem / rem_new * rem_new < 2 ^ w := by omega
      have hquo_m : rem / rem_new ≤ m := le_trans (Nat.div_le_self rem rem_new) hrem
      have hsub_eq : rem - rem / rem_new * rem_new = rem % rem_new := by
        have h := Nat.div_add_mod rem rem_new
        rw [Nat.mul_comm rem_new (rem / rem_new)] at h
        omega
      have hu := mult_mod_unchecked_spec (w := w) (m := m) (rem / rem_new) inv_new
        (by omega) hmw hquo_m
      have hult : rem / rem_new * inv_new % m < m := Nat.mod_lt _ (by omega)
      obtain ⟨z, hz, hzlt, hzmod⟩ :=
        sub_mod_unchecked_spec (m := m) inv (rem / rem_new * inv_new % m) hinv hult
      have hstep : multip_inv_go w m (fuel + 1) rem rem_new inv inv_new
          = multip_inv_go w m fuel rem_new (rem % rem_new) inv_new z := by
        rw [show multip_inv_go w m (fuel + 1) rem rem_new inv inv_new
            = (cmul w (rem / rem_new) rem_new).bind fun t =>
                (csub rem t).bind fun rem_new' =>
                  (mult_mod_unchecked w (rem / rem_new) inv_new m).bind fun u =>
                    (sub_mod_unchecked inv u m).bind fun inv_new' =>
                      multip_inv_go w m fuel rem_new rem_new' inv_new inv_new' by
              simp [multip_inv_go, hrn]]
        rw [show cmul w (rem / rem_new) rem_new = some (rem / rem_new * rem_new) by
            simp [cmul, hquo_lt]]
        rw [Option.some_bind, csub_eq hquo_le, Option.some_bind, hu, Option.some_bind,
          hz, Option.some_bind, hsub_eq]
      -- the new congruence invariant for the recursive call
      have hmodz : Int.ModEq (m : Int) ((rem % rem_new : Nat) : Int) ((z : Int) * (x0 : Int)) := by
        have hzint : Int.ModEq (m : Int) (z : Int)
            ((inv : Int) - ((rem / rem_new : Nat) : Int) * (inv_new : Int)) := by
          have h1 : Nat.ModEq m (z + rem / rem_new * inv_new % m) inv := hzmod
          have h2 : Int.ModEq (m : Int) ((z : Int) + ((rem / rem_new * inv_new % m : Nat) : Int))
              (inv : Int) := by
            rw [show (z : Int) + ((rem / rem_new * inv_new % m : Nat) : Int)
                = (((z + rem / rem_new * inv_new % m : Nat)) : Int) by push_cast; ring]
            exact_mod_cast Int.natCast_modEq_iff.mpr h1
          have h3 : Int.ModEq (m : Int) (((rem / rem_new * inv_new % m : Nat)) : Int)
              (((rem / rem_new : Nat) : Int) * (inv_new : Int)) := by
            rw [show (((rem / rem_new : Nat) : Int) * (inv_new : Int))
                = (((rem / rem_new * inv_new : Nat)) : Int) by push_cast; ring]
            exact_mod_cast Int.natCast_modEq_iff.mpr (Nat.mod_modEq _ m)
          have h4 := h2.sub h3
          have h5 : (z : Int) + ((rem / rem_new * inv_new % m : Nat) : Int)
              - ((rem / rem_new * inv_new % m : Nat) : Int) = (z : Int) := by ring
          rw [h5] at h4
          exact h4
        have hcast : ((rem % rem_new : Nat) : Int)
            = (rem : Int) - ((rem / rem_new : Nat) : Int) * (rem_new : Int) := by
          rw [← hsub_eq]
          push_cast [Nat.cast_sub hquo_le]
          ring
        rw [hcast]
        have hq := hmod2.mul_left ((rem / rem_new : Nat) : Int)
        have h6 := hmod1.sub hq
        have h7 := hzint.mul_right (x0 : Int)
        refine h6.trans (Int.ModEq.symm ?_)
        refine h7.trans ?_
        rw [show ((inv : Int) - ((rem / rem_new : Nat) : Int) * (inv_new : Int)) * (x0 : Int)
            = (inv : Int) * (x0 : Int)
              - ((rem / rem_new : Nat) : Int) * ((inv_new : Int) * (x0 : Int)) by ring]
      have hgcd : Nat.gcd rem_new (rem % rem_new) = Nat.gcd rem rem_new := by
        rw [Nat.gcd_comm rem_new (rem % rem_new), ← Nat.gcd_rec rem_new rem,
          Nat.gcd_comm rem_new rem]
      obtain ⟨r, hr, hg1, hg2⟩ := ih rem_new (rem % rem_new) inv_new z
        (by have := Nat.mod_lt rem hrnpos; omega) (Nat.mod_lt _ hrnpos) (by omega)
        hinv_new hzlt hmod2 hmodz
      rw [hstep]
      exact ⟨r, hr, fun hg => hg1 (by rw [hgcd]; exact hg), fun hg => hg2 (by rw [hgcd]; exact hg)⟩

/-- Claim C7: for every `x` and modulus `m ≥ 2` (below the width bound):
when `gcd(x, m) > 1`, `Arith::multip_inv` returns the sentinel `0`; when
`gcd(x, m) = 1`, the returned value is a true modular inverse of `x`. -/
theorem claim7_multip_inv (w x m : Nat) (hm : 2 ≤ m) (hmw : m ≤ 2 ^ w - 1) :
    (1 < Nat.gcd x m → multip_inv w x m = some 0) ∧
    (Nat.gcd x m = 1 → ∃ v, multip_inv w x m = some v ∧ v < m ∧ x * v % m = 1) := by
  have hpos : 0 < 2 ^ w := Nat.pos_pow_of_pos w (by omega)
  have hmw' : m < 2 ^ w := by omega
  have hxm : x % m < m := Nat.mod_lt _ (by omega)
  have hinv1 : Int.ModEq (m : Int) (m : Int) ((0 : Nat) * (x : Int)) := by
    rw [Nat.cast_zero, zero_mul]
    exact Int.modEq_iff_dvd.mpr (by simp)
  have hinv2 : Int.ModEq (m : Int) ((x % m : Nat) : Int) ((1 : Nat) * (x : Int)) := by
    rw [Nat.cast_one, one_mul]
    exact_mod_cast Int.natCast_modEq_iff.mpr (Nat.mod_modEq x m)
  obtain ⟨r, hr, hg1, hg2⟩ := multip_inv_go_spec (w := w) x hm hmw' m m (x % m) 0 1
    (le_of_lt hxm) hxm le_rfl (by omega) (by omega) hinv1 hinv2
  have hgcd : Nat.gcd m (x % m) = Nat.gcd x m := by
    rw [Nat.gcd_comm m (x % m), ← Nat.gcd_rec m x, Nat.gcd_comm m x]
  constructor
  · intro hg
    have := hg2 (by rw [hgcd]; exact hg)
    subst this
    exact hr
  · intro hg
    obtain ⟨hlt, hmod⟩ := hg1 (by rw [hgcd]; exact hg)
    exact ⟨r, hr, hlt, hmod⟩

/-- Witness for claim C7 at `w = 32`, `m = 10`: `gcd(4, 10) = 2 > 1` gives
the sentinel `0`, and `gcd(3, 10) = 1` gives the inverse `7` of `3`. -/
theorem claim7_multip_inv_witness :
    multip_inv 32 4 10 = some 0 ∧ multip_inv 32 3 10 = some 7 ∧ 3 * 7 % 10 = 1 := by
  refine ⟨(claim7_multip_inv 32 4 10 (by decide) (by decide)).1 (by decide), by decide, by decide⟩

theorem jacobi_two_step {n : Nat} (hodd : n % 2 = 1) (x : Nat) (hpar : x % 2 = 0) (t : Int) :
    (if n % 8 = 3 ∨ n % 8 = 5 then -t else t) * jacobiSym ((x / 2 : Nat) : Int) n
      = t * jacobiSym ((x : Nat) : Int) n := by
  have hx2 : ((x : Nat) : Int) = 2 * ((x / 2 : Nat) : Int) := by push_cast; omega
  rw [hx2, jacobiSym.mul_left, jacobiSym.at_two (Nat.odd_iff.mpr hodd),
    ZMod.χ₈_nat_eq_if_mod_eight, if_neg (by omega : ¬n % 2 = 0)]
  by_cases h8 : n % 8 = 1 ∨ n % 8 = 7
  · rw [if_pos h8, if_neg (by omega : ¬(n % 8 = 3 ∨ n % 8 = 5))]
    ring
  · rw [if_neg h8, if_pos (by omega : n % 8 = 3 ∨ n % 8 = 5)]
    ring

theorem jacobi_strip_go_spec {w n : Nat} (hodd : n % 2 = 1) :
    ∀ sfuel x t, 0 < x → x < 2 ^ (w - 1) → x < 2 ^ sfuel →
      ∃ x' t', jacobi_strip_go w n sfuel x t = some (x', t') ∧
        x' % 2 = 1 ∧ 0 < x' ∧ x' ≤ x ∧
        t' * jacobiSym ((x' : Nat) : Int) n = t * jacobiSym ((x : Nat) : Int) n := by
  intro sfuel
  induction sfuel with
  | zero =>
    intro x t hx hxw hxf
    exact absurd hxf (by simpa using Nat.not_lt.mpr hx)
  | succ sfuel ih =>
    intro x t hx hxw hxf
    by_cases hpar : x % 2 = 1
    · exact ⟨x, t, by simp [jacobi_strip_go, hpar], hpar, hx, le_rfl, rfl⟩
    · have hpar0 : x % 2 = 0 := by omega
      have hasr : asr w x = x / 2 := by unfold asr; rw [if_neg (by omega)]
      have hpow : 2 ^ (sfuel + 1) = 2 * 2 ^ sfuel := by rw [pow_succ]; ring
      obtain ⟨x', t', heq, hodd', hpos', hle', hmul⟩ :=
        ih (x / 2) (if n % 8 = 3 ∨ n % 8 = 5 then -t else t)
          (by omega) (by omega) (by omega)
      refine ⟨x', t', ?_, hodd', hpos', le_trans hle' (Nat.div_le_self x 2), ?_⟩
      · rw [show jacobi_strip_go w n (sfuel + 1) x t
            = jacobi_strip_go w n sfuel (asr w x)
                (if n % 8 = 3 ∨ n % 8 = 5 then -t else t) by
              simp [jacobi_strip_go, hpar], hasr, heq]
      · rw [hmul]
        exact jacobi_two_step hodd x hpar0 t

theorem jacobi_go_spec {w : Nat} :
    ∀ fuel x n t, n % 2 = 1 → 0 < n → n < 2 ^ (w - 1) → x < n → n ≤ fuel →
      jacobi_go w fuel x n t = some (t * jacobiSym ((x : Nat) : Int) n) := by
  intro fuel
  induction fuel with
  | zero => intro x n t hodd hn hnw hx hf; omega
  | succ fuel ih =>
    intro x n t hodd hn hnw hx hf
    by_cases hx0 : x = 0
    · subst hx0
      by_cases hn1 : n = 1
      · subst hn1
        simp [jacobi_go, jacobiSym.one_right]
      · have h1n : 1 < n := by omega
        simp [jacobi_go, hn1, jacobiSym.zero_left h1n]
    · have hx2w : x < 2 ^ (w + 1) := by
        have hle : 2 ^ (w - 1) ≤ 2 ^ (w + 1) := Nat.pow_le_pow_right (by omega) (by omega)
        omega
      obtain ⟨x', t', heq, hodd', hpos', hle', hmul⟩ :=
        jacobi_strip_go_spec (w := w) (n := n) hodd (w + 1) x t (by omega) (by omega) hx2w
      rw [show jacobi_go w (fuel + 1) x n t
          = (jacobi_strip_go w n (w + 1) x t).bind fun p =>
              jacobi_go w fuel (n % p.1) p.1
                (if n % 4 = 3 ∧ p.1 % 4 = 3 then -p.2 else p.2) by
            simp [jacobi_go, hx0]]
      rw [heq, Option.some_bind]
      rw [ih (n % x') x' (if n % 4 = 3 ∧ x' % 4 = 3 then -t' else t')
        hodd' hpos' (by omega) (Nat.mod_lt n hpos') (by omega)]
      congr 1
      have hml : jacobiSym ((n % x' : Nat) : Int) x' = jacobiSym ((n : Nat) : Int) x' := by
        rw [show ((n % x' : Nat) : Int) = ((n : Nat) : Int) % ((x' : Nat) : Int) by
          push_cast; rfl]
        rw [← jacobiSym.mod_left]
      rw [hml]
      have hqr := jacobiSym.quadratic_reciprocity_if (a := n) (b := x') hodd hodd'
      by_cases hc : n % 4 = 3 ∧ x' % 4 = 3
      · rw [if_pos hc] at hqr ⊢
        rw [← hqr]
        calc -t' * -jacobiSym ((x' : Nat) : Int) n
            = t' * jacobiSym ((x' : Nat) : Int) n := by ring
          _ = t * jacobiSym ((x : Nat) : Int) n := hmul
      · rw [if_neg hc] at hqr ⊢
        rw [← hqr]
        exact hmul

theorem jacobi_symbol_spec {w n : Nat} (x : Nat) (hodd : n % 2 = 1) (hn : 0 < n)
    (hnw : n < 2 ^ (w - 1)) :
    jacobi_symbol w x n = some (jacobiSym ((x : Nat) : Int) n) := by
  unfold jacobi_symbol
  rw [jacobi_go_spec (n + 1) (x % n) n 1 hodd hn hnw (Nat.mod_lt x hn) (by omega), one_mul]
  congr 1
  rw [show ((x % n : Nat) : Int) = ((x : Nat) : Int) % ((n : Nat) : Int) by push_cast; rfl]
  rw [← jacobiSym.mod_left]


theorem pm_sq {p b e v v2 e2 : Nat} (h : b ^ e % p = v) (he : e2 = 2 * e)
    (h2 : v * v % p = v2) : b ^ e2 % p = v2 := by
  subst he
  calc b ^ (2 * e) % p = (b ^ e) ^ 2 % p := by rw [mul_comm, pow_mul]
    _ = (b ^ e % p) ^ 2 % p := by rw [Nat.pow_mod]
    _ = (v * v) % p := by rw [h, pow_two]
    _ = v2 := h2

theorem pm_sq1 {p b e v v2 e2 : Nat} (h : b ^ e % p = v) (he : e2 = 2 * e + 1)
    (h2 : v * v % p * (b % p) % p = v2) : b ^ e2 % p = v2 := by
  subst he
  have hsq : b ^ (2 * e) % p = v * v % p := pm_sq h rfl rfl
  calc b ^ (2 * e + 1) % p = b ^ (2 * e) * b % p := by rw [pow_succ]
    _ = (b ^ (2 * e) % p) * (b % p) % p := by rw [Nat.mul_mod]
    _ = (v * v % p) * (b % p) % p := by rw [hsq]
    _ = v2 := h2

theorem zmod_pow_val (e v : Nat) (hcomp : (2 : Nat) ^ e % 4294967291 = v) :
    ((2 : Nat) : ZMod 4294967291) ^ e = ((v : Nat) : ZMod 4294967291) := by
  calc ((2 : Nat) : ZMod 4294967291) ^ e
      = ((2 ^ e : Nat) : ZMod 4294967291) := by push_cast; ring
    _ = ((2 ^ e % 4294967291 : Nat) : ZMod 4294967291) := (ZMod.natCast_mod _ _).symm
    _ = ((v : Nat) : ZMod 4294967291) := by rw [hcomp]

theorem zmod_pow_ne_one (e v : Nat) (hcomp : (2 : Nat) ^ e % 4294967291 = v)
    (hv : v < 4294967291) (hv1 : v ≠ 1) :
    ((2 : Nat) : ZMod 4294967291) ^ e ≠ 1 := by
  rw [zmod_pow_val e v hcomp]
  intro h
  have hval := congrArg ZMod.val h
  rw [ZMod.val_cast_of_lt hv, ZMod.val_one'' (by norm_num : (4294967291 : Nat) ≠ 1)] at hval
  exact hv1 hval


theorem pow2_mod_facts :
    (2 : Nat) ^ 4294967290 % 4294967291 = 1 ∧
    (2 : Nat) ^ 2147483645 % 4294967291 = 4294967290 ∧
    (2 : Nat) ^ 858993458 % 4294967291 = 149005400 ∧
    (2 : Nat) ^ 226050910 % 4294967291 = 81549662 ∧
    (2 : Nat) ^ 190 % 4294967291 = 1073745729 := by

  have ha0 : (2 : Nat) ^ 1 % 4294967291 = 2 := by decide
  have ha1 : (2 : Nat) ^ 3 % 4294967291 = 8 :=
    pm_sq1 ha0 (by decide) (by decide)
  have ha2 : (2 : Nat) ^ 7 % 4294967291 = 128 :=
    pm_sq1 ha1 (by decide) (by decide)
  have ha3 : (2 : Nat) ^ 15 % 4294967291 = 32768 :=
    pm_sq1 ha2 (by decide) (by decide)
  have ha4 : (2 : Nat) ^ 31 % 4294967291 = 2147483648 :=
    pm_sq1 ha3 (by decide) (by decide)
  have ha5 : (2 : Nat) ^ 63 % 4294967291 = 2147483658 :=
    pm_sq1 ha4 (by decide) (by decide)
  have ha6 : (2 : Nat) ^ 127 % 4294967291 = 2147483958 :=
    pm_sq1 ha5 (by decide) (by decide)
  have ha7 : (2 : Nat) ^ 255 % 4294967291 = 2147678958 :=
    pm_sq1 ha6 (by decide) (by decide)
  have ha8 : (2 : Nat) ^ 511 % 4294967291 = 1132017720 :=
    pm_sq1 ha7 (by decide) (by decide)
  have ha9 : (2 : Nat) ^ 1023 % 4294967291 = 3026704579 :=
    pm_sq1 ha8 (by decide) (by decide)
  have ha10 : (2 : Nat) ^ 2047 % 4294967291 = 2956805791 :=
    pm_sq1 ha9 (by decide) (by decide)
  have ha11 : (2 : Nat) ^ 4095 % 4294967291 = 1942866765 :=
    pm_sq1 ha10 (by decide) (by decide)
  have ha12 : (2 : Nat) ^ 8191 % 4294967291 = 3714305848 :=
    pm_sq1 ha11 (by decide) (by decide)
  have ha13 : (2 : Nat) ^ 16383 % 4294967291 = 3031303048 :=
    pm_sq1 ha12 (by decide) (by decide)
  have ha14 : (2 : Nat) ^ 32767 % 4294967291 = 353149209 :=
    pm_sq1 ha13 (by decide) (by decide)
  have ha15 : (2 : Nat) ^ 65535 % 4294967291 = 1153410921 :=
    pm_sq1 ha14 (by decide) (by decide)
  have ha16 : (2 : Nat) ^ 131071 % 4294967291 = 3236959824 :=
    pm_sq1 ha15 (by decide) (by decide)
  have ha17 : (2 : Nat) ^ 262143 % 4294967291 = 1576914029 :=
    pm_sq1 ha16 (by decide) (by decide)
  have ha18 : (2 : Nat) ^ 524287 % 4294967291 = 578265673 :=
    pm_sq1 ha17 (by decide) (by decide)
  have ha19 : (2 : Nat) ^ 1048575 % 4294967291 = 2212816837 :=
    pm_sq1 ha18 (by decide) (by decide)
  have ha20 : (2 : Nat) ^ 2097151 % 4294967291 = 889384459 :=
    pm_sq1 ha19 (by decide) (by decide)
  have ha21 : (2 : Nat) ^ 4194303 % 4294967291 = 3033467628 :=
    pm_sq1 ha20 (by decide) (by decide)
  have ha22 : (2 : Nat) ^ 8388607 % 4294967291 = 289711946 :=
    pm_sq1 ha21 (by decide) (by decide)
  have ha23 : (2 : Nat) ^ 16777215 % 4294967291 = 1290348818 :=
    pm_sq1 ha22 (by decide) (by decide)
  have ha24 : (2 : Nat) ^ 33554431 % 4294967291 = 3653646841 :=
    pm_sq1 ha23 (by decide) (by decide)
  have ha25 : (2 : Nat) ^ 67108863 % 4294967291 = 4113184316 :=
    pm_sq1 ha24 (by decide) (by decide)
  have ha26 : (2 : Nat) ^ 134217727 % 4294967291 = 2319251450 :=
    pm_sq1 ha25 (by decide) (by decide)
  have ha27 : (2 : Nat) ^ 268435455 % 4294967291 = 1430430472 :=
    pm_sq1 ha26 (by decide) (by decide)
  have ha28 : (2 : Nat) ^ 536870911 % 4294967291 = 2883293336 :=
    pm_sq1 ha27 (by decide) (by decide)
  have ha29 : (2 : Nat) ^ 1073741822 % 4294967291 = 110536630 :=
    pm_sq ha28 (by decide) (by decide)
  have ha30 : (2 : Nat) ^ 2147483645 % 4294967291 = 4294967290 :=
    pm_sq1 ha29 (by decide) (by decide)
  have ha31 : (2 : Nat) ^ 4294967290 % 4294967291 = 1 :=
    pm_sq ha30 (by decide) (by decide)
  have hb0 : (2 : Nat) ^ 1 % 4294967291 = 2 := by decide
  have hb1 : (2 : Nat) ^ 3 % 4294967291 = 8 :=
    pm_sq1 hb0 (by decide) (by decide)
  have hb2 : (2 : Nat) ^ 7 % 4294967291 = 128 :=
    pm_sq1 hb1 (by decide) (by decide)
  have hb3 : (2 : Nat) ^ 15 % 4294967291 = 32768 :=
    pm_sq1 hb2 (by decide) (by decide)
  have hb4 : (2 : Nat) ^ 31 % 4294967291 = 2147483648 :=
    pm_sq1 hb3 (by decide) (by decide)
  have hb5 : (2 : Nat) ^ 63 % 4294967291 = 2147483658 :=
    pm_sq1 hb4 (by decide) (by decide)
  have hb6 : (2 : Nat) ^ 127 % 4294967291 = 2147483958 :=
    pm_sq1 hb5 (by decide) (by decide)
  have hb7 : (2 : Nat) ^ 255 % 4294967291 = 2147678958 :=
    pm_sq1 hb6 (by decide) (by decide)
  have hb8 : (2 : Nat) ^ 511 % 4294967291 = 1132017720 :=
    pm_sq1 hb7 (by decide) (by decide)
  have hb9 : (2 : Nat) ^ 1023 % 4294967291 = 3026704579 :=
    pm_sq1 hb8 (by decide) (by decide)
  have hb10 : (2 : Nat) ^ 2047 % 4294967291 = 2956805791 :=
    pm_sq1 hb9 (by decide) (by decide)
  have hb11 : (2 : Nat) ^ 4095 % 4294967291 = 1942866765 :=
    pm_sq1 hb10 (by decide) (by decide)
  have hb12 : (2 : Nat) ^ 8191 % 4294967291 = 3714305848 :=
    pm_sq1 hb11 (by decide) (by decide)
  have hb13 : (2 : Nat) ^ 16383 % 4294967291 = 3031303048 :=
    pm_sq1 hb12 (by decide) (by decide)
  have hb14 : (2 : Nat) ^ 32767 % 4294967291 = 353149209 :=
    pm_sq1 hb13 (by decide) (by decide)
  have hb15 : (2 : Nat) ^ 65535 % 4294967291 = 1153410921 :=
    pm_sq1 hb14 (by decide) (by decide)
  have hb16 : (2 : Nat) ^ 131071 % 4294967291 = 3236959824 :=
    pm_sq1 hb15 (by decide) (by decide)
  have hb17 : (2 : Nat) ^ 262143 % 4294967291 = 1576914029 :=
    pm_sq1 hb16 (by decide) (by decide)
  have hb18 : (2 : Nat) ^ 524287 % 4294967291 = 578265673 :=
    pm_sq1 hb17 (by decide) (by decide)
  have hb19 : (2 : Nat) ^ 1048575 % 4294967291 = 2212816837 :=
    pm_sq1 hb18 (by decide) (by decide)
  have hb20 : (2 : Nat) ^ 2097151 % 4294967291 = 889384459 :=
    pm_sq1 hb19 (by decide) (by decide)
  have hb21 : (2 : Nat) ^ 4194303 % 4294967291 = 3033467628 :=
    pm_sq1 hb20 (by decide) (by decide)
  have hb22 : (2 : Nat) ^ 8388607 % 4294967291 = 289711946 :=
    pm_sq1 hb21 (by decide) (by decide)
  have hb23 : (2 : Nat) ^ 16777215 % 4294967291 = 1290348818 :=
    pm_sq1 hb22 (by decide) (by decide)
  have hb24 : (2 : Nat) ^ 33554431 % 4294967291 = 3653646841 :=
    pm_sq1 hb23 (by decide) (by decide)
  have hb25 : (2 : Nat) ^ 67108863 % 4294967291 = 4113184316 :=
    pm_sq1 hb24 (by decide) (by decide)
  have hb26 : (2 : Nat) ^ 134217727 % 4294967291 = 2319251450 :=
    pm_sq1 hb25 (by decide) (by decide)
  have hb27 : (2 : Nat) ^ 268435455 % 4294967291 = 1430430472 :=
    pm_sq1 hb26 (by decide) (by decide)
  have hb28 : (2 : Nat) ^ 536870911 % 4294967291 = 2883293336 :=
    pm_sq1 hb27 (by decide) (by decide)
  have hb29 : (2 : Nat) ^ 1073741822 % 4294967291 = 110536630 :=
    pm_sq hb28 (by decide) (by decide)
  have hb30 : (2 : Nat) ^ 2147483645 % 4294967291 = 4294967290 :=
    pm_sq1 hb29 (by decide) (by decide)
  have hc0 : (2 : Nat) ^ 1 % 4294967291 = 2 := by decide
  have hc1 : (2 : Nat) ^ 3 % 4294967291 = 8 :=
    pm_sq1 hc0 (by decide) (by decide)
  have hc2 : (2 : Nat) ^ 6 % 4294967291 = 64 :=
    pm_sq hc1 (by decide) (by decide)
  have hc3 : (2 : Nat) ^ 12 % 4294967291 = 4096 :=
    pm_sq hc2 (by decide) (by decide)
  have hc4 : (2 : Nat) ^ 25 % 4294967291 = 33554432 :=
    pm_sq1 hc3 (by decide) (by decide)
  have hc5 : (2 : Nat) ^ 51 % 4294967291 = 2621440 :=
    pm_sq1 hc4 (by decide) (by decide)
  have hc6 : (2 : Nat) ^ 102 % 4294967291 = 8000 :=
    pm_sq hc5 (by decide) (by decide)
  have hc7 : (2 : Nat) ^ 204 % 4294967291 = 64000000 :=
    pm_sq hc6 (by decide) (by decide)
  have hc8 : (2 : Nat) ^ 409 % 4294967291 = 2727445732 :=
    pm_sq1 hc7 (by decide) (by decide)
  have hc9 : (2 : Nat) ^ 819 % 4294967291 = 3336883012 :=
    pm_sq1 hc8 (by decide) (by decide)
  have hc10 : (2 : Nat) ^ 1638 % 4294967291 = 3878059170 :=
    pm_sq hc9 (by decide) (by decide)
  have hc11 : (2 : Nat) ^ 3276 % 4294967291 = 2891299873 :=
    pm_sq hc10 (by decide) (by decide)
  have hc12 : (2 : Nat) ^ 6553 % 4294967291 = 678832052 :=
    pm_sq1 hc11 (by decide) (by decide)
  have hc13 : (2 : Nat) ^ 13107 % 4294967291 = 2361994 :=
    pm_sq1 hc12 (by decide) (by decide)
  have hc14 : (2 : Nat) ^ 26214 % 4294967291 = 4148112318 :=
    pm_sq hc13 (by decide) (by decide)
  have hc15 : (2 : Nat) ^ 52428 % 4294967291 = 3706990355 :=
    pm_sq hc14 (by decide) (by decide)
  have hc16 : (2 : Nat) ^ 104857 % 4294967291 = 1288567086 :=
    pm_sq1 hc15 (by decide) (by decide)
  have hc17 : (2 : Nat) ^ 209715 % 4294967291 = 2463791429 :=
    pm_sq1 hc16 (by decide) (by decide)
  have hc18 : (2 : Nat) ^ 419430 % 4294967291 = 472640636 :=
    pm_sq hc17 (by decide) (by decide)
  have hc19 : (2 : Nat) ^ 838860 % 4294967291 = 2073889892 :=
    pm_sq hc18 (by decide) (by decide)
  have hc20 : (2 : Nat) ^ 1677721 % 4294967291 = 3949327530 :=
    pm_sq1 hc19 (by decide) (by decide)
  have hc21 : (2 : Nat) ^ 3355443 % 4294967291 = 2625400798 :=
    pm_sq1 hc20 (by decide) (by decide)
  have hc22 : (2 : Nat) ^ 6710886 % 4294967291 = 4265196712 :=
    pm_sq hc21 (by decide) (by decide)
  have hc23 : (2 : Nat) ^ 13421772 % 4294967291 = 3693628227 :=
    pm_sq hc22 (by decide) (by decide)
  have hc24 : (2 : Nat) ^ 26843545 % 4294967291 = 3950343214 :=
    pm_sq1 hc23 (by decide) (by decide)
  have hc25 : (2 : Nat) ^ 53687091 % 4294967291 = 724823184 :=
    pm_sq1 hc24 (by decide) (by decide)
  have hc26 : (2 : Nat) ^ 107374182 % 4294967291 = 2691579136 :=
    pm_sq hc25 (by decide) (by decide)
  have hc27 : (2 : Nat) ^ 214748364 % 4294967291 = 1899686562 :=
    pm_sq hc26 (by decide) (by decide)
  have hc28 : (2 : Nat) ^ 429496729 % 4294967291 = 1304151046 :=
    pm_sq1 hc27 (by decide) (by decide)
  have hc29 : (2 : Nat) ^ 858993458 % 4294967291 = 149005400 :=
    pm_sq hc28 (by decide) (by decide)
  have hd0 : (2 : Nat) ^ 1 % 4294967291 = 2 := by decide
  have hd1 : (2 : Nat) ^ 3 % 4294967291 = 8 :=
    pm_sq1 hd0 (by decide) (by decide)
  have hd2 : (2 : Nat) ^ 6 % 4294967291 = 64 :=
    pm_sq hd1 (by decide) (by decide)
  have hd3 : (2 : Nat) ^ 13 % 4294967291 = 8192 :=
    pm_sq1 hd2 (by decide) (by decide)
  have hd4 : (2 : Nat) ^ 26 % 4294967291 = 67108864 :=
    pm_sq hd3 (by decide) (by decide)
  have hd5 : (2 : Nat) ^ 53 % 4294967291 = 10485760 :=
    pm_sq1 hd4 (by decide) (by decide)
  have hd6 : (2 : Nat) ^ 107 % 4294967291 = 256000 :=
    pm_sq1 hd5 (by decide) (by decide)
  have hd7 : (2 : Nat) ^ 215 % 4294967291 = 2222981270 :=
    pm_sq1 hd6 (by decide) (by decide)
  have hd8 : (2 : Nat) ^ 431 % 4294967291 = 969618917 :=
    pm_sq1 hd7 (by decide) (by decide)
  have hd9 : (2 : Nat) ^ 862 % 4294967291 = 3217242975 :=
    pm_sq hd8 (by decide) (by decide)
  have hd10 : (2 : Nat) ^ 1724 % 4294967291 = 280457911 :=
    pm_sq hd9 (by decide) (by decide)
  have hd11 : (2 : Nat) ^ 3449 % 4294967291 = 889024410 :=
    pm_sq1 hd10 (by decide) (by decide)
  have hd12 : (2 : Nat) ^ 6898 % 4294967291 = 2380437968 :=
    pm_sq hd11 (by decide) (by decide)
  have hd13 : (2 : Nat) ^ 13797 % 4294967291 = 834047533 :=
    pm_sq1 hd12 (by decide) (by decide)
  have hd14 : (2 : Nat) ^ 27594 % 4294967291 = 3778472688 :=
    pm_sq hd13 (by decide) (by decide)
  have hd15 : (2 : Nat) ^ 55188 % 4294967291 = 3011741913 :=
    pm_sq hd14 (by decide) (by decide)
  have hd16 : (2 : Nat) ^ 110376 % 4294967291 = 1117999300 :=
    pm_sq hd15 (by decide) (by decide)
  have hd17 : (2 : Nat) ^ 220752 % 4294967291 = 1506683705 :=
    pm_sq hd16 (by decide) (by decide)
  have hd18 : (2 : Nat) ^ 441505 % 4294967291 = 2904188493 :=
    pm_sq1 hd17 (by decide) (by decide)
  have hd19 : (2 : Nat) ^ 883011 % 4294967291 = 2542391368 :=
    pm_sq1 hd18 (by decide) (by decide)
  have hd20 : (2 : Nat) ^ 1766022 % 4294967291 = 1191733699 :=
    pm_sq hd19 (by decide) (by decide)
  have hd21 : (2 : Nat) ^ 3532045 % 4294967291 = 2832974460 :=
    pm_sq1 hd20 (by decide) (by decide)
  have hd22 : (2 : Nat) ^ 7064090 % 4294967291 = 1087244199 :=
    pm_sq hd21 (by decide) (by decide)
  have hd23 : (2 : Nat) ^ 14128181 % 4294967291 = 1175043658 :=
    pm_sq1 hd22 (by decide) (by decide)
  have hd24 : (2 : Nat) ^ 28256363 % 4294967291 = 2364090147 :=
    pm_sq1 hd23 (by decide) (by decide)
  have hd25 : (2 : Nat) ^ 56512727 % 4294967291 = 520209698 :=
    pm_sq1 hd24 (by decide) (by decide)
  have hd26 : (2 : Nat) ^ 113025455 % 4294967291 = 3786472082 :=
    pm_sq1 hd25 (by decide) (by decide)
  have hd27 : (2 : Nat) ^ 226050910 % 4294967291 = 81549662 :=
    pm_sq hd26 (by decide) (by decide)
  have he0 : (2 : Nat) ^ 1 % 4294967291 = 2 := by decide
  have he1 : (2 : Nat) ^ 2 % 4294967291 = 4 :=
    pm_sq he0 (by decide) (by decide)
  have he2 : (2 : Nat) ^ 5 % 4294967291 = 32 :=
    pm_sq1 he1 (by decide) (by decide)
  have he3 : (2 : Nat) ^ 11 % 4294967291 = 2048 :=
    pm_sq1 he2 (by decide) (by decide)
  have he4 : (2 : Nat) ^ 23 % 4294967291 = 8388608 :=
    pm_sq1 he3 (by decide) (by decide)
  have he5 : (2 : Nat) ^ 47 % 4294967291 = 163840 :=
    pm_sq1 he4 (by decide) (by decide)
  have he6 : (2 : Nat) ^ 95 % 4294967291 = 2147483708 :=
    pm_sq1 he5 (by decide) (by decide)
  have he7 : (2 : Nat) ^ 190 % 4294967291 = 1073745729 :=
    pm_sq he6 (by decide) (by decide)
  exact ⟨ha31, hb30, hc29, hd27, he7⟩

theorem prime_4294967291 : Nat.Prime 4294967291 := by
  obtain ⟨h1, h2, h5, h19, hq⟩ := pow2_mod_facts
  have hqprime : Nat.Prime 22605091 := by norm_num
  apply lucas_primality 4294967291 ((2 : Nat) : ZMod 4294967291)
  · rw [show (4294967291 : Nat) - 1 = 4294967290 by norm_num, zmod_pow_val 4294967290 1 h1]
    exact Nat.cast_one
  · intro q hqp hdvd
    rw [show (4294967291 : Nat) - 1 = 4294967290 by norm_num] at hdvd ⊢
    rw [show (4294967290 : Nat) = 2 * (5 * (19 * 22605091)) by norm_num] at hdvd
    rcases (Nat.Prime.dvd_mul hqp).mp hdvd with h | h
    · rw [(Nat.prime_dvd_prime_iff_eq hqp Nat.prime_two).mp h]
      exact zmod_pow_ne_one 2147483645 4294967290 h2 (by decide) (by decide)
    rcases (Nat.Prime.dvd_mul hqp).mp h with h' | h'
    · rw [(Nat.prime_dvd_prime_iff_eq hqp (by norm_num : Nat.Prime 5)).mp h']
      exact zmod_pow_ne_one 858993458 149005400 h5 (by decide) (by decide)
    rcases (Nat.Prime.dvd_mul hqp).mp h' with h'' | h''
    · rw [(Nat.prime_dvd_prime_iff_eq hqp (by norm_num : Nat.Prime 19)).mp h'']
      exact zmod_pow_ne_one 226050910 81549662 h19 (by decide) (by decide)
    · rw [(Nat.prime_dvd_prime_iff_eq hqp hqprime).mp h'']
      exact zmod_pow_ne_one 190 1073745729 hq (by decide) (by decide)


/-- Claim C3 counterexample: at width 32, `p = 4294967291` is an odd prime
representable in the width and `x = 4294967286 = 2p - 2^32` is not a
multiple of `p`, yet `Arith::jacobi_symbol` returns `0` — not a value in
`{-1, +1}` — because `x` is even with the top bit set and the loop shifts it
with `signed_shr`, which copies the sign bit even for unsigned types and so
corrupts the value (it turns `x` into exactly `p`). -/
theorem claim3_jacobi_counterexample :
    Nat.Prime 4294967291 ∧ 4294967291 % 2 = 1 ∧ ¬(4294967291 ∣ 4294967286) ∧
      jacobi_symbol 32 4294967286 4294967291 = some 0 :=
  ⟨prime_4294967291, by decide, by decide, by decide⟩

/-- Claim C3, amended: restricted to odd primes `p < 2 ^ (w - 1)` — so that
every intermediate value stays below the top bit and the `signed_shr` of the
loop acts as a plain halving — `Arith::jacobi_symbol` computes the Jacobi
symbol, which for prime `p` is the Legendre symbol of `x` modulo `p`; it
lies in `{-1, +1}` whenever `p` does not divide `x`, and it returns `0` if
and only if `p` divides `x`.  (For `p` above `2 ^ (w - 1)` the claim fails,
see the counterexample.) -/
theorem claim3_jacobi_legendre (w x p : Nat) (hp : Nat.Prime p) (hodd : p % 2 = 1)
    (hpw : p < 2 ^ (w - 1)) :
    jacobi_symbol w x p = some (jacobiSym ((x : Nat) : Int) p) ∧
    jacobiSym ((x : Nat) : Int) p = @legendreSym p ⟨hp⟩ ((x : Nat) : Int) ∧
    (¬p ∣ x → jacobiSym ((x : Nat) : Int) p = 1 ∨ jacobiSym ((x : Nat) : Int) p = -1) ∧
    (jacobi_symbol w x p = some 0 ↔ p ∣ x) := by
  have hpos : 0 < p := hp.pos
  have h2p : 2 ≤ p := hp.two_le
  have h1 := jacobi_symbol_spec (w := w) (n := p) x hodd hpos hpw
  refine ⟨h1, (@jacobiSym.legendreSym.to_jacobiSym p ⟨hp⟩ ((x : Nat) : Int)).symm, ?_, ?_, ?_⟩
  · intro hnd
    apply jacobiSym.eq_one_or_neg_one
    rw [Int.gcd_natCast_natCast, Nat.gcd_comm]
    exact (Nat.Prime.coprime_iff_not_dvd hp).mpr hnd
  · intro h0
    rw [h1] at h0
    have hz : jacobiSym ((x : Nat) : Int) p = 0 := Option.some.inj h0
    have hg := (jacobiSym.eq_zero_iff.mp hz).2
    by_contra hnd
    apply hg
    rw [Int.gcd_natCast_natCast, Nat.gcd_comm]
    exact (Nat.Prime.coprime_iff_not_dvd hp).mpr hnd
  · intro hdvd
    rw [h1]
    refine congrArg some (jacobiSym.eq_zero_iff.mpr ⟨by omega, ?_⟩)
    rw [Int.gcd_natCast_natCast, Nat.gcd_comm, Nat.gcd_eq_left hdvd]
    omega

/-- Witness for claim C3, amended, at `w = 32`, `x = 2`, `p = 5`: the code
returns `some (-1)`, which is the Jacobi (= Legendre) symbol of `2 mod 5`,
and in particular not `0` since `5` does not divide `2`. -/
theorem claim3_jacobi_legendre_witness :
    jacobi_symbol 32 2 5 = some (jacobiSym ((2 : Nat) : Int) 5) ∧
      jacobi_symbol 32 2 5 = some (-1) ∧ jacobi_symbol 32 2 5 ≠ some 0 := by
  have h := claim3_jacobi_legendre 32 2 5 (by norm_num) (by decide) (by decide)
  exact ⟨h.1, by decide, fun hc => (by decide : ¬(5 ∣ 2)) (h.2.2.2.mp hc)⟩

theorem isqrt_iter_eq (n : Nat) :
    ∀ fuel guess, guess ≤ fuel → isqrt_iter n fuel guess = Nat.sqrt.iter n guess := by
  intro fuel
  induction fuel with
  | zero =>
    intro guess h
    have hg : guess = 0 := by omega
    subst hg
    unfold Nat.sqrt.iter
    simp [isqrt_iter]
  | succ fuel ih =>
    intro guess h
    unfold Nat.sqrt.iter
    simp only [isqrt_iter]
    by_cases hlt : (guess + n / guess) / 2 < guess
    · rw [if_pos hlt, dif_pos hlt, ih _ (by omega)]
    · rw [if_neg hlt, dif_neg hlt]

/-- The fueled Newton iteration model agrees with the floor square root, so
`isqrt` is a faithful model of `num::integer::sqrt`. -/
theorem isqrt_eq_sqrt (n : Nat) : isqrt n = Nat.sqrt n := by
  unfold isqrt Nat.sqrt
  by_cases h : n ≤ 1
  · rw [if_pos h, if_pos h]
  · rw [if_neg h, if_neg h, isqrt_iter_eq n n (n / 2) (Nat.div_le_self n 2)]

theorem fermat_loop_atomic (w num level : Nat) :
    ∀ iters a asq, (fermat_loop w num level iters a asq).2 = 1 ∨
      fermat_loop w num level iters a asq = ([], num) := by
  intro iters
  induction iters with
  | zero => intro a asq; exact Or.inr rfl
  | succ iters ih =>
    intro a asq
    simp only [fermat_loop]
    by_cases h1 : trunc_square w (isqrt (asq - num)) = asq - num
    · rw [if_pos h1]
      exact Or.inl rfl
    · rw [if_neg h1]
      by_cases h2 : trunc_square w (a + 1) = 0
      · rw [if_pos h2]
        exact Or.inr rfl
      · rw [if_neg h2]
        exact ih (a + 1) (trunc_square w (a + 1))

/-- Claim C8: `Factorization::factorize_fermat` is atomic on failure.  For
every fuel, width, primality oracle, cofactor and level, the call either
signals success (the returned remaining number is `1`), or it returns its
cofactor argument unchanged having appended nothing to the factor list —
in particular in the two failure modes of the claim (no candidate `a` among
the up-to-10 increments yields a perfect square, or `trunc_square` signals
overflow with its `0` sentinel). -/
theorem claim8_fermat_atomic (w : Nat) (oracle : Nat → Bool) :
    ∀ fuel num level, (factorize_fermat w oracle fuel num level).2 = 1 ∨
      factorize_fermat w oracle fuel num level = ([], num) := by
  intro fuel
  induction fuel with
  | zero => intro num level; exact Or.inr rfl
  | succ fuel ih =>
    intro num level
    simp only [factorize_fermat]
    by_cases hsq : trunc_square w (isqrt num) = num
    · rw [if_pos hsq]
      by_cases hor : oracle (isqrt num) = true
      · rw [if_pos hor]
        exact Or.inl rfl
      · rw [if_neg hor]
        rcases ih (isqrt num) (level * 2) with h | h
        · rw [if_neg (by omega : ¬1 < (factorize_fermat w oracle fuel (isqrt num) (level * 2)).2)]
          exact Or.inl h
        · rw [h]
          by_cases ha : 1 < isqrt num
          · rw [if_pos ha]
            exact Or.inr rfl
          · rw [if_neg ha]
            rcases Nat.lt_or_ge (isqrt num) 1 with h0 | h0
            · have ha0 : isqrt num = 0 := by omega
              have hnum : num = 0 := by
                rw [← hsq, ha0]
                rfl
              exact Or.inr (by rw [ha0, hnum])
            · have ha1 : isqrt num = 1 := by omega
              rw [ha1]
              exact Or.inl rfl
    · rw [if_neg hsq]
      by_cases h2 : trunc_square w (isqrt num + 1) = 0
      · rw [if_pos h2]
        exact Or.inr rfl
      · rw [if_neg h2]
        exact fermat_loop_atomic w num level 10 (isqrt num + 1) (trunc_square w (isqrt num + 1))

/-- Claim C9: for `N = 0` and `N = 1`, `Factorization::run` returns without
error a record with an empty factor list and `is_prime = false`, for every
width, oracle, elliptic stage and fuel. -/
theorem claim9_degenerate_inputs (w : Nat) (oracle : Nat → Bool)
    (ell : Nat → List Nat × Nat) (fuel : Nat) :
    run w oracle ell fuel 0 = { num := 0, is_prime := false, factors := [] } ∧
    run w oracle ell fuel 1 = { num := 1, is_prime := false, factors := [] } :=
  ⟨rfl, rfl⟩

set_option maxRecDepth 10000 in
theorem run_at_counterexample (oracle : Nat → Bool) (ell : Nat → List Nat × Nat) (fuel : Nat) :
    run 64 oracle ell (fuel + 1) 4098041086211087
      = { num := 4098041086211087, is_prime := false,
          factors := [64015937, 64015951] } := by
  have htrial : factorize_trial 4098041086211087 = ([], 4098041086211087) := by decide
  have hferm : factorize_fermat 64 oracle 4098041086211087 4098041086211087 2
      = ([64015937, 64015951], 1) := rfl
  have huntil : factorize_until_completed 64 oracle ell (fuel + 1) 4098041086211087
      = [64015937, 64015951] := by
    simp only [factorize_until_completed]
    rw [if_neg (by decide : ¬(4098041086211087 : Nat) ≤ 1)]
    simp only [hferm]
    simp
  have hprune : prune_duplicate_factors 4098041086211087 [64015937, 64015951]
      = [64015937, 64015951] := by decide
  unfold run
  rw [if_neg (by decide : ¬(4098041086211087 : Nat) ≤ 1)]
  simp only [htrial, huntil, List.nil_append, hprune]
  rw [if_pos (by decide : 1 < ([64015937, 64015951] : List Nat).length)]

/-- Claim C1 is violated by the code on a concrete input (code bug): at
`N = 4098041086211087 = 7993 * 8009 * 64015951`, whose prime factors all
exceed the trial-division table bound `7963`, Fermat's method finds
`N = 64015937 * 64015951` at its first candidate and pushes both halves
into the factor list without any primality check (`factor/mod.rs`, lines
283-295); `run` therefore returns `factors = [64015937, 64015951]` whose
first element `64015937 = 7993 * 8009` is composite, violating result
invariant I2 ("every element of `factors` is prime").  The execution path
is deterministic: the result holds for every primality oracle, every
elliptic stage and every positive loop fuel. -/
theorem claim1_run_composite_factor (oracle : Nat → Bool)
    (ell : Nat → List Nat × Nat) (fuel : Nat) :
    (run 64 oracle ell (fuel + 1) 4098041086211087).factors = [64015937, 64015951] ∧
    64015937 ∈ (run 64 oracle ell (fuel + 1) 4098041086211087).factors ∧
    ¬Nat.Prime 64015937 := by
  rw [run_at_counterexample oracle ell fuel]
  exact ⟨rfl, List.mem_cons_self 64015937 [64015951],
    Nat.not_prime_mul' (by norm_num : 7993 * 8009 = 64015937) (by norm_num) (by norm_num)⟩

/-- Claim C5, amended: in the wheel worker, at the first trial candidate `k`
with `k > cofactor / k` the worker appends the pair `(cofactor, false)` —
flagged as NOT certainly prime, so the driver re-checks it — to the shared
`MaybeFactors` list, sets the shared cofactor to `1`, and finishes, sending
`true` on the channel. -/
theorem claim5_wheel_declares_unchecked (fuel i k num : Nat) (mf : MaybeFactors)
    (h : num / (k + wheel_inc.getD (i % 48) 0) < k + wheel_inc.getD (i % 48) 0) :
    wheel_worker_go (fuel + 1) i k num mf
      = some ({ num := 1, factors := mf.factors ++ [(num, false)] }, true) := by
  simp only [wheel_worker_go]
  rw [if_pos h]

/-- Witness for claim C5, amended, at cofactor `104729`: the first candidate
`7993` exceeds `104729 / 7993 = 13` and the worker appends
`(104729, false)` and finishes. -/
theorem claim5_wheel_declares_unchecked_witness :
    wheel_worker_go 5 0 7991 104729 { num := 104729, factors := [] }
      = some ({ num := 1, factors := [(104729, false)] }, true) :=
  claim5_wheel_declares_unchecked 4 0 7991 104729 { num := 104729, factors := [] }
    (by decide)

/-- Claim C5 counterexample: the claim says the worker declaring the
remaining cofactor prime appends `(cofactor, true)`; on cofactor `104729`
the code appends `(104729, false)` — the certainty flag is `false`, not
`true` (the old `factorization.rs` variant appends nothing at all there). -/
theorem claim5_wheel_counterexample :
    wheel_worker 5 104729 = some ({ num := 1, factors := [(104729, false)] }, true) ∧
      ((104729, false) : Nat × Bool) ≠ (104729, true) :=
  ⟨by decide, by decide⟩

theorem decimal_go_all_digits :
    ∀ l acc, (∀ c ∈ l, c.isDigit) →
      decimal_go l acc = some (l.foldl (fun a c => a * 10 + (c.toNat - 48)) acc) := by
  intro l
  induction l with
  | nil => intro acc _; rfl
  | cons c cs ih =>
    intro acc h
    simp only [decimal_go, List.foldl]
    rw [if_pos (h c (List.mem_cons_self c cs))]
    exact ih _ fun d hd => h d (List.mem_cons_of_mem c hd)

theorem decimal_go_nondigit :
    ∀ l acc, (∃ c ∈ l, ¬c.isDigit) → decimal_go l acc = none := by
  intro l
  induction l with
  | nil => rintro acc ⟨c, hc, _⟩; cases hc
  | cons c cs ih =>
    rintro acc ⟨d, hd, hnd⟩
    simp only [decimal_go]
    by_cases hc : c.isDigit
    · rw [if_pos hc]
      rcases List.mem_cons.mp hd with h | h
      · exact absurd (h ▸ hc) hnd
      · exact ih _ ⟨d, h, hnd⟩
    · rw [if_neg hc]

theorem parse_u128_digits (s : List Char) (hne : s ≠ []) (hd : ∀ c ∈ s, c.isDigit)
    (hlt : dec_value s < 2 ^ 128) : parse_u128 s = some (dec_value s) := by
  obtain ⟨c, cs, rfl⟩ := List.exists_cons_of_ne_nil hne
  have hc : c.isDigit := hd c (List.mem_cons_self c cs)
  have hcp : ¬c = '+' := fun h => by rw [h] at hc; exact absurd hc (by decide)
  simp only [parse_u128, plus_strip]
  rw [if_neg hcp, if_neg (by simp : ¬(c :: cs = [])), decimal_go_all_digits _ 0 hd,
    Option.some_bind]
  rw [if_pos (show List.foldl (fun a c => a * 10 + (c.toNat - 48)) 0 (c :: cs) < 2 ^ 128
    from hlt)]
  rfl

theorem parse_u128_with_underscore (s : List Char) (hus : '_' ∈ s) :
    parse_u128 s = none := by
  cases s with
  | nil => cases hus
  | cons c cs =>
    simp only [parse_u128, plus_strip]
    by_cases hcp : c = '+'
    · rw [if_pos hcp]
      have hcs : '_' ∈ cs := by
        rcases List.mem_cons.mp hus with h | h
        · rw [hcp] at h; cases h
        · exact h
      have hcs_ne : ¬(cs = []) := fun h => by rw [h] at hcs; cases hcs
      rw [if_neg hcs_ne, decimal_go_nondigit cs 0 ⟨'_', hcs, by decide⟩]
      rfl
    · rw [if_neg hcp, if_neg (by simp : ¬(c :: cs = [])),
        decimal_go_nondigit _ 0 ⟨'_', hus, by decide⟩]
      rfl

theorem parse_to_int_spec (s : String) (n : Nat)
    (hne : strip_underscores s.data ≠ [])
    (hd : ∀ c ∈ strip_underscores s.data, c.isDigit)
    (hval : dec_value (strip_underscores s.data) = n) (hlt : n < 2 ^ 128) :
    parse_to_int s = some n := by
  have hstrip : parse_u128 (strip_underscores s.data) = some n := by
    have h := parse_u128_digits (strip_underscores s.data) hne hd (by rw [hval]; exact hlt)
    rw [hval] at h
    exact h
  by_cases hus : '_' ∈ s.data
  · have hnone := parse_u128_with_underscore s.data hus
    simp only [parse_to_int, hnone]
    exact hstrip
  · have hid : strip_underscores s.data = s.data := by
      unfold strip_underscores
      apply List.filter_eq_self.mpr
      intro c hc
      simp only [ne_eq, decide_eq_true_eq]
      exact fun h => hus (h ▸ hc)
    have hsome : parse_u128 s.data = some n := by rw [← hid]; exact hstrip
    simp only [parse_to_int, hsome]

/-- Claim C10: the CLI parser accepts the pretty flag in either position.
For every two-element argument list in which one element is `"-p"` or
`"--pretty"` and the other, with underscores removed, is a nonempty decimal
digit string denoting `n < 2 ^ 128`, `parse_arguments` returns
`Ok (n, true)` whether the flag precedes or follows the number. -/
theorem claim10_pretty_flag_both_positions (flag numArg : String) (n : Nat)
    (hflag : flag = "-p" ∨ flag = "--pretty")
    (hne : strip_underscores numArg.data ≠ [])
    (hd : ∀ c ∈ strip_underscores numArg.data, c.isDigit)
    (hval : dec_value (strip_underscores numArg.data) = n)
    (hlt : n < 2 ^ 128) :
    parse_arguments [flag, numArg] = Except.ok (n, true) ∧
    parse_arguments [numArg, flag] = Except.ok (n, true) := by
  have hpi : parse_to_int numArg = some n := parse_to_int_spec numArg n hne hd hval hlt
  have hguard : flag = "--pretty" ∨ flag = "-p" := hflag.symm
  have hnp : ¬(numArg = "--pretty" ∨ numArg = "-p") := by
    rintro (h | h) <;> rw [h] at hd <;> revert hd <;> decide
  constructor
  · simp only [parse_arguments]
    rw [if_pos hguard, hpi]
  · simp only [parse_arguments]
    rw [if_neg hnp, if_pos hguard, hpi]

/-- Witness for claim C10 at `["-p", "1_000"]` and `["1_000", "-p"]`: both
orders parse to `Ok (1000, true)`, underscores ignored. -/
theorem claim10_pretty_flag_both_positions_witness :
    parse_arguments ["-p", "1_000"] = Except.ok (1000, true) ∧
    parse_arguments ["1_000", "-p"] = Except.ok (1000, true) :=
  claim10_pretty_flag_both_positions "-p" "1_000" 1000 (Or.inl rfl)
    (by decide) (by decide) (by decide) (by decide)

theorem rle_spec_head (x : Nat) (xs : List Nat) :
    ∃ d rest, rle_spec (x :: xs) = (x, d) :: rest ∧ 0 < d := by
  cases hx : rle_spec xs with
  | nil => exact ⟨1, [], by simp [rle_spec, hx], one_pos⟩
  | cons g rest =>
    obtain ⟨q, d⟩ := g
    by_cases hq : x = q
    · exact ⟨d + 1, rest, by simp [rle_spec, hx, hq], by omega⟩
    · exact ⟨1, (q, d) :: rest, by simp [rle_spec, hx, hq], one_pos⟩

theorem rle_spec_flatten_inv :
    ∀ l : List Nat, ((rle_spec l).map fun g => List.replicate g.2 g.1).flatten = l := by
  intro l
  induction l with
  | nil => rfl
  | cons x xs ih =>
    cases hx : rle_spec xs with
    | nil =>
      rw [hx] at ih
      simp only [List.map_nil, List.flatten_nil] at ih
      simp [rle_spec, hx, ← ih]
    | cons g rest =>
      obtain ⟨q, d⟩ := g
      rw [hx] at ih
      simp only [List.map_cons, List.flatten_cons] at ih
      by_cases hq : x = q
      · subst hq
        rw [show rle_spec (x :: xs) = (x, d + 1) :: rest by simp [rle_spec, hx]]
        simp only [List.map_cons, List.flatten_cons]
        rw [List.replicate_succ, List.cons_append, ih]
      · rw [show rle_spec (x :: xs) = (x, 1) :: (q, d) :: rest by simp [rle_spec, hx, hq]]
        simp only [List.map_cons, List.flatten_cons]
        rw [ih]
        rfl

theorem rle_spec_pos : ∀ (l : List Nat) (g : Nat × Nat), g ∈ rle_spec l → 1 ≤ g.2 := by
  intro l
  induction l with
  | nil => intro g hg; cases hg
  | cons x xs ih =>
    intro g hg
    cases hx : rle_spec xs with
    | nil =>
      rw [show rle_spec (x :: xs) = [(x, 1)] by simp [rle_spec, hx]] at hg
      rcases List.mem_singleton.mp hg with h
      rw [h]
    | cons g2 rest =>
      obtain ⟨q, d⟩ := g2
      by_cases hq : x = q
      · rw [show rle_spec (x :: xs) = (x, d + 1) :: rest by simp [rle_spec, hx, hq]] at hg
        rcases List.mem_cons.mp hg with h | h
        · rw [h]; omega
        · exact ih g (by rw [hx]; exact List.mem_cons_of_mem _ h)
      · rw [show rle_spec (x :: xs) = (x, 1) :: (q, d) :: rest by
          simp [rle_spec, hx, hq]] at hg
        rcases List.mem_cons.mp hg with h | h
        · rw [h]
        · exact ih g (by rw [hx]; exact h)

theorem rle_spec_fst_mem : ∀ (l : List Nat) (g : Nat × Nat), g ∈ rle_spec l → g.1 ∈ l := by
  intro l
  induction l with
  | nil => intro g hg; cases hg
  | cons x xs ih =>
    intro g hg
    cases hx : rle_spec xs with
    | nil =>
      rw [show rle_spec (x :: xs) = [(x, 1)] by simp [rle_spec, hx]] at hg
      rw [List.mem_singleton.mp hg]
      exact List.mem_cons_self x xs
    | cons g2 rest =>
      obtain ⟨q, d⟩ := g2
      by_cases hq : x = q
      · rw [show rle_spec (x :: xs) = (x, d + 1) :: rest by simp [rle_spec, hx, hq]] at hg
        rcases List.mem_cons.mp hg with h | h
        · rw [h]; exact List.mem_cons_self x xs
        · exact List.mem_cons_of_mem x (ih g (by rw [hx]; exact List.mem_cons_of_mem _ h))
      · rw [show rle_spec (x :: xs) = (x, 1) :: (q, d) :: rest by
          simp [rle_spec, hx, hq]] at hg
        rcases List.mem_cons.mp hg with h | h
        · rw [h]; exact List.mem_cons_self x xs
        · exact List.mem_cons_of_mem x (ih g (by rw [hx]; exact h))

theorem rle_spec_chain :
    ∀ l : List Nat, List.Chain' (fun a b : Nat × Nat => a.1 ≠ b.1) (rle_spec l) := by
  intro l
  induction l with
  | nil => exact List.chain'_nil
  | cons x xs ih =>
    cases hx : rle_spec xs with
    | nil =>
      rw [show rle_spec (x :: xs) = [(x, 1)] by simp [rle_spec, hx]]
      exact List.chain'_singleton _
    | cons g2 rest =>
      obtain ⟨q, d⟩ := g2
      rw [hx] at ih
      by_cases hq : x = q
      · rw [show rle_spec (x :: xs) = (x, d + 1) :: rest by simp [rle_spec, hx, hq]]
        cases rest with
        | nil => exact List.chain'_singleton _
        | cons g3 rest2 =>
          rw [List.chain'_cons]
          rw [List.chain'_cons] at ih
          exact ⟨by rw [hq]; exact ih.1, ih.2⟩
      · rw [show rle_spec (x :: xs) = (x, 1) :: (q, d) :: rest by simp [rle_spec, hx, hq]]
        rw [List.chain'_cons]
        exact ⟨hq, ih⟩

theorem rle_replicate_append (p : Nat) :
    ∀ c l, 0 < c →
      rle_spec (List.replicate c p ++ l) =
        (match rle_spec l with
          | [] => [(p, c)]
          | (q, d) :: rest =>
            if p = q then (p, d + c) :: rest else (p, c) :: (q, d) :: rest) := by
  intro c
  induction c with
  | zero => intro l h; omega
  | succ c ih =>
    intro l _
    by_cases hc : c = 0
    · subst hc
      rw [show List.replicate 1 p ++ l = p :: l by simp [List.replicate]]
      cases hl : rle_spec l with
      | nil => simp [rle_spec, hl]
      | cons g rest =>
        obtain ⟨q, d⟩ := g
        by_cases hq : p = q
        · simp [rle_spec, hl, hq]
        · simp [rle_spec, hl, hq]
    · have hc1 : 0 < c := by omega
      rw [List.replicate_succ, List.cons_append]
      cases hl : rle_spec l with
      | nil =>
        have hrec := ih l hc1
        rw [hl] at hrec
        simp only at hrec
        rw [show rle_spec (p :: (List.replicate c p ++ l)) = (p, c + 1) :: [] by
          simp [rle_spec, hrec]]
      | cons g rest =>
        obtain ⟨q, d⟩ := g
        have hrec := ih l hc1
        rw [hl] at hrec
        simp only at hrec
        by_cases hq : p = q
        · rw [if_pos hq] at hrec
          rw [show rle_spec (p :: (List.replicate c p ++ l)) = (p, d + c + 1) :: rest by
            simp [rle_spec, hrec]]
          simp only [if_pos hq]
          rw [show d + (c + 1) = d + c + 1 by omega]
        · rw [if_neg hq] at hrec
          rw [show rle_spec (p :: (List.replicate c p ++ l))
              = (p, c + 1) :: (q, d) :: rest by simp [rle_spec, hrec]]
          simp only [if_neg hq]

theorem rle_flatten_of_groups :
    ∀ gs : List (Nat × Nat), (∀ g ∈ gs, 0 < g.2) →
      List.Chain' (fun a b : Nat × Nat => a.1 ≠ b.1) gs →
      rle_spec ((gs.map fun g => List.replicate g.2 g.1).flatten) = gs := by
  intro gs
  induction gs with
  | nil => intro _ _; rfl
  | cons g rest ih =>
    obtain ⟨p, c⟩ := g
    intro hpos hchain
    simp only [List.map_cons, List.flatten_cons]
    rw [rle_replicate_append p c _ (hpos (p, c) (List.mem_cons_self _ _))]
    rw [ih (fun g hg => hpos g (List.mem_cons_of_mem _ hg)) hchain.tail]
    cases rest with
    | nil => rfl
    | cons g2 rest2 =>
      obtain ⟨q, d⟩ := g2
      have hne : p ≠ q := (List.chain'_cons.mp hchain).1
      simp [hne]

theorem rle_spec_reverse (l : List Nat) : rle_spec l.reverse = (rle_spec l).reverse := by
  conv_lhs => rw [← rle_spec_flatten_inv l]
  rw [List.reverse_flatten]
  rw [show ((rle_spec l).map fun g => List.replicate g.2 g.1).map List.reverse
      = (rle_spec l).map fun g => List.replicate g.2 g.1 by
    rw [List.map_map]
    exact List.map_congr_left fun g _ => List.reverse_replicate g.2 g.1]
  rw [← List.map_reverse]
  exact rle_flatten_of_groups _
    (fun g hg => rle_spec_pos l g (List.mem_reverse.mp hg))
    (List.chain'_reverse.mpr ((rle_spec_chain l).imp fun a b hab => Ne.symm hab))

theorem rle_spec_pairwise (l : List Nat) (h : l.Pairwise (· ≤ ·)) :
    (rle_spec l).Pairwise (fun a b : Nat × Nat => a.1 ≤ b.1) := by
  induction l with
  | nil => exact List.Pairwise.nil
  | cons x xs ih =>
    rw [List.pairwise_cons] at h
    obtain ⟨hle, hxs⟩ := h
    have hall : ∀ g ∈ rle_spec xs, x ≤ g.1 :=
      fun g hg => hle g.1 (rle_spec_fst_mem xs g hg)
    cases hx : rle_spec xs with
    | nil =>
      rw [show rle_spec (x :: xs) = [(x, 1)] by simp [rle_spec, hx]]
      exact List.pairwise_singleton _ _
    | cons g2 rest =>
      obtain ⟨q, d⟩ := g2
      rw [hx] at hall
      have hihs := ih hxs
      rw [hx] at hihs
      by_cases hq : x = q
      · rw [show rle_spec (x :: xs) = (x, d + 1) :: rest by simp [rle_spec, hx, hq]]
        rw [List.pairwise_cons]
        exact ⟨fun b hb => hall b (List.mem_cons_of_mem _ hb), hihs.of_cons⟩
      · rw [show rle_spec (x :: xs) = (x, 1) :: (q, d) :: rest by simp [rle_spec, hx, hq]]
        rw [List.pairwise_cons]
        exact ⟨fun b hb => hall b hb, hihs⟩

theorem rle_spec_pow_prod (l : List Nat) :
    ((rle_spec l).map fun g => g.1 ^ g.2).prod = l.prod := by
  conv_rhs => rw [← rle_spec_flatten_inv l]
  rw [List.prod_flatten, List.map_map]
  exact congrArg List.prod
    (List.map_congr_left fun g _ => (List.prod_replicate g.2 g.1).symm)

theorem two_le_prod (l : List Nat) (hne : l ≠ []) (h2 : ∀ f ∈ l, 2 ≤ f) :
    2 ≤ l.prod := by
  cases l with
  | nil => exact absurd rfl hne
  | cons f fs =>
    rw [List.prod_cons]
    have h1 : 0 < fs.prod := List.prod_pos fun a ha => by
      have := h2 a (List.mem_cons_of_mem f ha); omega
    have hf := h2 f (List.mem_cons_self f fs)
    have := Nat.mul_le_mul hf h1
    omega

theorem prime_factor_repr_go_full :
    ∀ r c p, (∀ f ∈ r, 2 ≤ f) → r ≠ [] → 0 < c →
      prime_factor_repr_go r r.prod c p = rle_spec (List.replicate c p ++ r) := by
  intro r
  induction r with
  | nil => intro c p _ hne _; exact absurd rfl hne
  | cons f fs ih =>
    intro c p h2 _ hc
    have hf : 2 ≤ f := h2 f (List.mem_cons_self f fs)
    simp only [prime_factor_repr_go]
    cases fs with
    | nil =>
      rw [show (f :: ([] : List Nat)).prod = f by simp, Nat.div_self (by omega : 0 < f),
        if_pos rfl]
      rw [rle_replicate_append p c [f] hc]
      rw [show rle_spec [f] = [(f, 1)] from rfl]
      by_cases hfp : f = p
      · rw [if_neg (by simp [hfp] : ¬(f ≠ p ∧ 0 < c)), if_neg (by simp [hfp])]
        simp only [if_pos hfp.symm]
        rw [List.nil_append]
        rw [show (1 : Nat) + c = c + 1 by omega, hfp]
      · rw [if_pos ⟨hfp, hc⟩, if_pos ⟨hfp, hc⟩]
        simp only [if_neg (fun h => hfp h.symm : ¬p = f)]
        rfl
    | cons f2 fs2 =>
      have htail2 : ∀ a ∈ f2 :: fs2, 2 ≤ a := fun a ha => h2 a (List.mem_cons_of_mem f ha)
      have hprodtail : 2 ≤ (f2 :: fs2).prod := two_le_prod _ (by simp) htail2
      have hk' : (f :: f2 :: fs2).prod / f = (f2 :: fs2).prod := by
        rw [List.prod_cons]
        exact Nat.mul_div_cancel_left _ (by omega)
      rw [hk', if_neg (by omega : ¬(f2 :: fs2).prod = 1)]
      by_cases hfp : f = p
      · rw [if_neg (by simp [hfp] : ¬(f ≠ p ∧ 0 < c)), if_neg (by simp [hfp])]
        rw [ih (c + 1) f htail2 (by simp) (by omega), List.nil_append]
        rw [show List.replicate c p ++ (f :: f2 :: fs2)
            = List.replicate (c + 1) f ++ (f2 :: fs2) by
          rw [List.replicate_succ', hfp, List.append_assoc]
          rfl]
      · rw [if_pos ⟨hfp, hc⟩, if_pos ⟨hfp, hc⟩]
        rw [ih 1 f htail2 (by simp) one_pos]
        rw [show List.replicate 1 f ++ (f2 :: fs2) = f :: f2 :: fs2 by simp [List.replicate]]
        obtain ⟨d, rest, hhead, _⟩ := rle_spec_head f (f2 :: fs2)
        rw [rle_replicate_append p c _ hc, hhead]
        simp only [if_neg (fun h => hfp h.symm : ¬p = f)]
        rfl

theorem prime_factor_repr_go_top (r : List Nat) (h2 : ∀ f ∈ r, 2 ≤ f) (hne : r ≠ []) :
    prime_factor_repr_go r r.prod 0 0 = rle_spec r := by
  cases r with
  | nil => exact absurd rfl hne
  | cons f fs =>
    have hf : 2 ≤ f := h2 f (List.mem_cons_self f fs)
    simp only [prime_factor_repr_go]
    rw [if_neg (by simp : ¬(f ≠ 0 ∧ 0 < 0)), if_neg (by simp : ¬(f ≠ 0 ∧ 0 < 0))]
    cases fs with
    | nil =>
      rw [show (f :: ([] : List Nat)).prod = f by simp, Nat.div_self (by omega : 0 < f),
        if_pos rfl]
      rfl
    | cons f2 fs2 =>
      have htail2 : ∀ a ∈ f2 :: fs2, 2 ≤ a := fun a ha => h2 a (List.mem_cons_of_mem f ha)
      have hprodtail : 2 ≤ (f2 :: fs2).prod := two_le_prod _ (by simp) htail2
      have hk' : (f :: f2 :: fs2).prod / f = (f2 :: fs2).prod := by
        rw [List.prod_cons]
        exact Nat.mul_div_cancel_left _ (by omega)
      rw [hk', if_neg (by omega : ¬(f2 :: fs2).prod = 1)]
      rw [prime_factor_repr_go_full (f2 :: fs2) 1 f htail2 (by simp) one_pos]
      rw [show List.replicate 1 f ++ (f2 :: fs2) = f :: f2 :: fs2 by simp [List.replicate]]
      rfl

/-- Claim C6: for a result record satisfying the run invariants for `N ≥ 2`
— `factors` sorted non-decreasing with product `num` and every element at
least `2` (every prime is) — `Factorization::prime_factor_repr` returns
exactly the run-length encoding of the `factors` list: the same pairs in
the same non-decreasing order of primes, every exponent at least `1`, and
the product of `p ^ k` over all pairs equal to `num`. -/
theorem claim6_prime_factor_repr (num : Nat) (factors : List Nat)
    (hsort : List.Pairwise (fun a b : Nat => a ≤ b) factors)
    (h2 : ∀ f ∈ factors, 2 ≤ f) (hprod : factors.prod = num) (hN : 2 ≤ num) :
    prime_factor_repr num factors = rle_spec factors ∧
    (∀ g ∈ rle_spec factors, 1 ≤ g.2) ∧
    List.Pairwise (fun a b : Nat × Nat => a.1 ≤ b.1) (rle_spec factors) ∧
    ((rle_spec factors).map fun g => g.1 ^ g.2).prod = num := by
  have hne : factors ≠ [] := by
    intro h
    rw [h] at hprod
    simp at hprod
    omega
  refine ⟨?_, fun g hg => rle_spec_pos factors g hg, rle_spec_pairwise factors hsort,
    by rw [rle_spec_pow_prod, hprod]⟩
  unfold prime_factor_repr
  rw [← hprod, ← List.prod_reverse]
  rw [prime_factor_repr_go_top factors.reverse
    (fun f hf => h2 f (List.mem_reverse.mp hf)) (by simpa using hne)]
  rw [show factors = factors.reverse.reverse by rw [List.reverse_reverse]]
  rw [rle_spec_reverse, List.reverse_reverse]

/-- Witness for claim C6 at `num = 12`, `factors = [2, 2, 3]`:
`prime_factor_repr` returns `[(2, 2), (3, 1)]`, the run-length encoding,
with product `2 ^ 2 * 3 ^ 1 = 12`. -/
theorem claim6_prime_factor_repr_witness :
    prime_factor_repr 12 [2, 2, 3] = [(2, 2), (3, 1)] ∧
      (([(2, 2), (3, 1)] : List (Nat × Nat)).map fun g => g.1 ^ g.2).prod = 12 := by
  have h := claim6_prime_factor_repr 12 [2, 2, 3]
    (by decide) (by decide) (by decide) (by decide)
  exact ⟨h.1.trans (by decide), by decide⟩
